import Mathlib

/-!
GoMatrixBot: credential bootstrap and session lifecycle.

A shallow embedding of `main.go` (function `main`) and `matrix/Bot.go`
(type `Bot` and its methods).  Go strings are `String`, byte slices are lists
of bytes with `none` for the nil slice, a Go `error` is `Option String`
(`none` is the nil error), and a Go panic is an explicit outcome.  Pointer
receivers become explicit state passing: every method returns the updated
`Bot`.  The external collaborators (the SQL database, the mautrix client, the
crypto helper, the entropy source) are not reimplemented; their answers are
the fields of `World`, and every call made to them is recorded, in order,
as an `Event`.
-/

namespace MatrixBot

/-! ## Data model -/

/-- One byte of a Go byte slice. -/
abbrev Byte := Fin 256

/-- A non-nil Go byte slice. -/
abbrev Bytes := List Byte

/-- A row of table `credentials (accessToken TEXT, deviceId TEXT, userId TEXT,
pickleKey BLOB)`, fields in the column order of the CREATE TABLE statement.
`none` is SQL NULL. -/
structure Row where
  accessToken : Option String
  deviceId : Option String
  userId : Option String
  pickleKey : Option Bytes
deriving DecidableEq, Repr

/-- Process-wide configuration: the package-level variables of `main.go` that
`init` fills from the process environment. -/
structure Config where
  homeserver : String
  displayName : String
  username : String
  password : String
  recoveryKey : String
deriving DecidableEq, Repr

/-- Login flow type; `password` is `mautrix.AuthTypePassword`. -/
inductive AuthType where
  | password
  | token
deriving DecidableEq, Repr

/-- User identifier type; `user` is `mautrix.IdentifierTypeUser`. -/
inductive IdentifierType where
  | user
  | thirdparty
  | phone
deriving DecidableEq, Repr

/-- Go struct `mautrix.UserIdentifier`, the fields the bot fills. -/
structure UserIdentifier where
  type : IdentifierType
  user : String
deriving DecidableEq, Repr

/-- Go struct `mautrix.ReqLogin`, the fields the bot fills. -/
structure ReqLogin where
  type : AuthType
  identifier : UserIdentifier
  password : String
  storeCredentials : Bool
  storeHomeserverURL : Bool
deriving DecidableEq, Repr

/-- Go struct `mautrix.RespLogin`, the fields the bot reads. -/
structure RespLogin where
  AccessToken : String
  DeviceID : String
  UserID : String
deriving DecidableEq, Repr

/-- Message kind; `text` is `event.MsgText`. -/
inductive MessageType where
  | text
  | emote
  | notice
deriving DecidableEq, Repr

/-- Event type; `message` is `event.EventMessage`. -/
inductive EventType where
  | message
  | reaction
  | encrypted
deriving DecidableEq, Repr

/-- Go struct `event.MessageEventContent`, the fields the bot fills. -/
structure MessageEventContent where
  MsgType : MessageType
  Body : String
deriving DecidableEq, Repr

/-- A `context.Context`; `background` is `context.Background()`. -/
inductive Ctx where
  | background
  | custom (tag : Nat)
deriving DecidableEq, Repr

/-- A pointer from the client to an object owned by the bot: the client shares
the syncer and the crypto helper with the bot rather than copying them. -/
inductive Ptr where
  | syncer
  | cryptoHelper
deriving DecidableEq, Repr

/-- Go struct `mautrix.Client`, the fields the bot reads or writes. -/
structure Client where
  HomeserverURL : String
  AccessToken : String
  UserID : String
  DeviceID : String
  Syncer : Option Ptr
  Crypto : Option Ptr
deriving DecidableEq, Repr

/-- Go struct `mautrix.DefaultSyncer`: the number of registered sync listeners
and the event types that have a handler. -/
structure DefaultSyncer where
  syncListeners : Nat
  eventHandlers : List (EventType × Nat)
deriving DecidableEq, Repr

/-- Go struct `cryptohelper.CryptoHelper`: what it was built from and whether
its `Init` has run. -/
structure CryptoHelper where
  pickleKey : Bytes
  dbPath : String
  initialised : Bool
deriving DecidableEq, Repr

/-- Go struct `Bot` of `matrix/Bot.go`.  The client pointer `matrix` is
allocated by `NewBot`, the constructor every bot goes through, and is not
nil; the pointer fields that start out nil are options. -/
structure Bot where
  DisplayName : String
  Homeserver : String
  Username : String
  password : String
  AccessToken : String
  UserId : String
  DeviceId : String
  matrix : Client
  ctx : Option Ctx
  DbPath : String
  encryptionPickleKey : Option Bytes
  recoveryKey : Option String
  syncer : Option DefaultSyncer
  cryptoHelper : Option CryptoHelper
  OnMessage : Option Nat
deriving DecidableEq, Repr

/-- A call made to a collaborator, with its arguments and the error it
answered with (`none` is success), or the entry into `verifySession`. -/
inductive Event where
  | dbQuery (err : Option String)
  | newClient (homeserver : String) (err : Option String)
  | randRead (n : Nat) (err : Option String)
  | login (req : ReqLogin) (resp : Option RespLogin) (err : Option String)
  | newCryptoHelper (pickleKey : Bytes) (dbPath : String) (err : Option String)
  | cryptoInit (err : Option String)
  | setDisplayName (name : String) (err : Option String)
  | dbInsert (v1 v2 v3 : String) (v4 : Bytes) (err : Option String)
  | verifySession
  | getDefaultKeyData (err : Option String)
  | verifyRecoveryKey (keyId : String) (recoveryKey : String) (err : Option String)
  | fetchCrossSigningKeys (key : Bytes) (err : Option String)
  | signOwnDevice (err : Option String)
  | signOwnMasterKey (err : Option String)
  | sendMessageEvent (roomID : String) (evtType : EventType)
      (content : MessageEventContent) (err : Option String)
deriving DecidableEq, Repr

/-- The answers of the collaborators during one process lifetime. -/
structure World where
  /-- rows of table `credentials` that the iteration over the SELECT result
  yields, in that order -/
  rows : List Row
  /-- rows of table `credentials` that the iteration does not yield because
  fetching a row fails: `res.Next()` is then false as it is at the end of the
  result, and the error stays in `res.Err()`; empty when fetching succeeds -/
  unfetched : List Row
  /-- what `res.Err()` would return after the iteration; `main` never calls
  it -/
  fetchErr : Option String
  /-- error of `db.Query` -/
  queryErr : Option String
  /-- error of the INSERT through `db.Exec` -/
  insertErr : Option String
  /-- error of `mautrix.NewClient` for a homeserver URL -/
  newClientErr : String → Option String
  /-- the i-th byte the entropy source delivers -/
  entropy : Nat → Byte
  /-- error of `rand.Read` -/
  randErr : Option String
  /-- answer of the login endpoint -/
  login : ReqLogin → Except String RespLogin
  /-- error of `cryptohelper.NewCryptoHelper` -/
  newCryptoHelperErr : Bytes → String → Option String
  /-- error of `helper.Init` -/
  cryptoInitErr : Bytes → Option String
  /-- error of `SetDisplayName` -/
  setDisplayNameErr : String → Option String
  /-- answer of `SSSS.GetDefaultKeyData`: key id and key data -/
  getDefaultKeyData : Except String (String × Bytes)
  /-- answer of `keyData.VerifyRecoveryKey` -/
  verifyRecoveryKey : String → Bytes → String → Except String Bytes
  /-- error of `FetchCrossSigningKeysFromSSSS` -/
  fetchCrossSigningKeysErr : Bytes → Option String
  /-- error of `SignOwnDevice` -/
  signOwnDeviceErr : Option String
  /-- error of `SignOwnMasterKey` -/
  signOwnMasterKeyErr : Option String
  /-- error of `SendMessageEvent` -/
  sendMessageEventErr : String → EventType → MessageEventContent → Option String

/-- What a method with a pointer receiver and a single `error` result leaves
behind: the returned error, the receiver afterwards, the calls it made. -/
structure Ret where
  err : Option String
  bot : Bot
  events : List Event
deriving DecidableEq, Repr

/-! ## matrix/Bot.go -/

/-- Go `NewBot`. -/
def NewBot (w : World) (homeserver displayName : String) :
    Except String Bot × List Event :=
  match w.newClientErr homeserver with
  | some e => (.error e, [.newClient homeserver (some e)])
  | none =>
    (.ok
      { DisplayName := displayName
        Homeserver := homeserver
        Username := ""
        password := ""
        AccessToken := ""
        UserId := ""
        DeviceId := ""
        matrix :=
          { HomeserverURL := homeserver, AccessToken := "", UserID := "",
            DeviceID := "", Syncer := none, Crypto := none }
        ctx := none
        DbPath := "matrix_bot.db"
        encryptionPickleKey := none
        recoveryKey := none
        syncer := none
        cryptoHelper := none
        OnMessage := none },
      [.newClient homeserver none])

/-- Go `(*Bot).SetContext`. -/
def Bot.SetContext (b : Bot) (ctx : Ctx) : Bot :=
  { b with ctx := some ctx }

/-- Go `(*Bot).SetUsernamePassword`. -/
def Bot.SetUsernamePassword (b : Bot) (username password : String) : Bot :=
  { b with Username := username, password := password }

/-- Go `(*Bot).SetAccessTokenCredentials`. -/
def Bot.SetAccessTokenCredentials (b : Bot) (accessToken userId deviceId : String) : Bot :=
  { b with
    AccessToken := accessToken
    UserId := userId
    DeviceId := deviceId
    matrix :=
      { b.matrix with AccessToken := accessToken, UserID := userId, DeviceID := deviceId } }

/-- Go `(*Bot).EnableEncryption`. -/
def Bot.EnableEncryption (b : Bot) (pickleKey : Bytes) : Bot :=
  { b with encryptionPickleKey := some pickleKey }

/-- Go `(*Bot).EnableSessionVerification`. -/
def Bot.EnableSessionVerification (b : Bot) (recoveryKey : String) : Bot :=
  { b with recoveryKey := some recoveryKey }

/-- Go `NewBotWithUsernameAndPassword`. -/
def NewBotWithUsernameAndPassword (w : World)
    (homeserver displayName username password : String) :
    Except String Bot × List Event :=
  match NewBot w homeserver displayName with
  | (.error e, t) => (.error e, t)
  | (.ok bot, t) => (.ok (bot.SetUsernamePassword username password), t)

/-- Go `NewBotWithAccessTokenCredentials`. -/
def NewBotWithAccessTokenCredentials (w : World)
    (homeserver displayName accessToken userId deviceId : String) :
    Except String Bot × List Event :=
  match NewBot w homeserver displayName with
  | (.error e, t) => (.error e, t)
  | (.ok bot, t) => (.ok (bot.SetAccessTokenCredentials accessToken userId deviceId), t)

/-- Go `(*Bot).getCtx`: the context, and the receiver afterwards. -/
def Bot.getCtx (b : Bot) : Ctx × Bot :=
  match b.ctx with
  | none => (Ctx.background, { b with ctx := some Ctx.background })
  | some c => (c, b)

/-- The request `(*Bot).login` builds. -/
def Bot.loginRequest (b : Bot) : ReqLogin :=
  { type := AuthType.password
    identifier := { type := IdentifierType.user, user := b.Username }
    password := b.password
    storeCredentials := true
    storeHomeserverURL := true }

/-- Go `(*Bot).login`.  A successful login with `StoreCredentials` also makes
the client keep the returned credentials. -/
def Bot.login (w : World) (b : Bot) : Ret :=
  let b1 := b.getCtx.2
  let req := b1.loginRequest
  match w.login req with
  | .error e => { err := some e, bot := b1, events := [.login req none (some e)] }
  | .ok response =>
    let b2 : Bot :=
      { b1 with
        matrix :=
          { b1.matrix with
            AccessToken := response.AccessToken
            UserID := response.UserID
            DeviceID := response.DeviceID } }
    { err := none
      bot :=
        { b2 with
          AccessToken := response.AccessToken
          UserId := response.UserID
          DeviceId := response.DeviceID }
      events := [.login req (some response) none] }

/-- Go `(*Bot).initializeEncryption`, for the key `*receiver.encryptionPickleKey`. -/
def Bot.initializeEncryption (w : World) (b : Bot) (pickleKey : Bytes) : Ret :=
  match w.newCryptoHelperErr pickleKey b.DbPath with
  | some e =>
    { err := some e, bot := b, events := [.newCryptoHelper pickleKey b.DbPath (some e)] }
  | none =>
    let b1 := b.getCtx.2
    match w.cryptoInitErr pickleKey with
    | some e =>
      { err := some e, bot := b1
        events := [.newCryptoHelper pickleKey b.DbPath none, .cryptoInit (some e)] }
    | none =>
      { err := none
        bot :=
          { b1 with
            cryptoHelper :=
              some { pickleKey := pickleKey, dbPath := b.DbPath, initialised := true }
            matrix := { b1.matrix with Crypto := some Ptr.cryptoHelper } }
        events := [.newCryptoHelper pickleKey b.DbPath none, .cryptoInit none] }

/-- The error `(*Bot).Init` builds with `errors.New`. -/
def initConfigError : String :=
  "either username and password or access token and user id and device id must be set"

/-- The identity of the bot is incomplete: the condition of line 83 of
`Bot.go`. -/
def Bot.identityIncomplete (b : Bot) : Bool :=
  b.AccessToken == "" || b.UserId == "" || b.DeviceId == ""

/-- The guard of the login step of `(*Bot).Init` (line 76). -/
def Bot.wantsLogin (b : Bot) : Bool :=
  b.Username != "" && b.password != "" && b.identityIncomplete

/-- The login step of `(*Bot).Init` (lines 76 to 81): log in when the guard
holds, do nothing otherwise. -/
def Bot.loginStep (w : World) (b : Bot) : Ret :=
  if b.wantsLogin then b.login w else { err := none, bot := b, events := [] }

/-- Go `mautrix.NewDefaultSyncer`. -/
def NewDefaultSyncer : DefaultSyncer :=
  { syncListeners := 0, eventHandlers := [] }

/-- The encryption step of `(*Bot).Init` (lines 91 to 96). -/
def Bot.encryptionStep (w : World) (b : Bot) : Ret :=
  match b.encryptionPickleKey with
  | some key => b.initializeEncryption w key
  | none => { err := none, bot := b, events := [] }

/-- Go `(*Bot).Init`. -/
def Bot.Init (w : World) (b : Bot) : Ret :=
  let r1 := b.loginStep w
  match r1.err with
  | some e => { err := some e, bot := r1.bot, events := r1.events }
  | none =>
    if r1.bot.identityIncomplete then
      { err := some initConfigError, bot := r1.bot, events := r1.events }
    else
      let b2 : Bot :=
        { r1.bot with
          syncer := some NewDefaultSyncer
          matrix := { r1.bot.matrix with Syncer := some Ptr.syncer } }
      let r2 := b2.encryptionStep w
      match r2.err with
      | some e => { err := some e, bot := r2.bot, events := r1.events ++ r2.events }
      | none =>
        let b3 := r2.bot.getCtx.2
        let err := w.setDisplayNameErr b3.DisplayName
        { err := err, bot := b3
          events := r1.events ++ r2.events ++ [.setDisplayName b3.DisplayName err] }

/-- Go `(*Bot).SendMessage`. -/
def Bot.SendMessage (w : World) (b : Bot) (text roomID : String) : Ret :=
  let content : MessageEventContent := { MsgType := MessageType.text, Body := text }
  let err := w.sendMessageEventErr roomID EventType.message content
  match err with
  | some e =>
    { err := some e, bot := b
      events := [.sendMessageEvent roomID EventType.message content (some e)] }
  | none =>
    { err := none, bot := b
      events := [.sendMessageEvent roomID EventType.message content none] }

/-- How a call that may panic ends. -/
inductive Outcome where
  | returned (err : Option String)
  | panicked (msg : String)
deriving DecidableEq, Repr

/-- What `verifySession` leaves behind. -/
structure VerifyRet where
  outcome : Outcome
  bot : Bot
  events : List Event
deriving DecidableEq, Repr

/-- The runtime error of a nil pointer dereference. -/
def nilDeref : String :=
  "runtime error: invalid memory address or nil pointer dereference"

/-- Go `(*Bot).verifySession`.  With no crypto helper the machine is nil and
the first use of it panics.  The recovery key pointer is dereferenced at the
second step. -/
def Bot.verifySession (w : World) (b : Bot) : VerifyRet :=
  match b.cryptoHelper with
  | none =>
    { outcome := .panicked nilDeref, bot := b.getCtx.2, events := [.verifySession] }
  | some _ =>
    let b1 := b.getCtx.2
    match w.getDefaultKeyData with
    | .error e =>
      { outcome := .returned (some e), bot := b1
        events := [.verifySession, .getDefaultKeyData (some e)] }
    | .ok (keyId, keyData) =>
      match b1.recoveryKey with
      | none =>
        { outcome := .panicked nilDeref, bot := b1
          events := [.verifySession, .getDefaultKeyData none] }
      | some rk =>
        match w.verifyRecoveryKey keyId keyData rk with
        | .error e =>
          { outcome := .returned (some e), bot := b1
            events :=
              [.verifySession, .getDefaultKeyData none, .verifyRecoveryKey keyId rk (some e)] }
        | .ok key =>
          match w.fetchCrossSigningKeysErr key with
          | some e =>
            { outcome := .returned (some e), bot := b1
              events :=
                [.verifySession, .getDefaultKeyData none, .verifyRecoveryKey keyId rk none,
                  .fetchCrossSigningKeys key (some e)] }
          | none =>
            match w.signOwnDeviceErr with
            | some e =>
              { outcome := .returned (some e), bot := b1
                events :=
                  [.verifySession, .getDefaultKeyData none, .verifyRecoveryKey keyId rk none,
                    .fetchCrossSigningKeys key none, .signOwnDevice (some e)] }
            | none =>
              { outcome := .returned w.signOwnMasterKeyErr, bot := b1
                events :=
                  [.verifySession, .getDefaultKeyData none, .verifyRecoveryKey keyId rk none,
                    .fetchCrossSigningKeys key none, .signOwnDevice none,
                    .signOwnMasterKey w.signOwnMasterKeyErr] }

/-- Go struct `mautrix.RespSync`, the field the sync loop advances by. -/
structure RespSync where
  NextBatch : String
deriving DecidableEq, Repr

/-- The variables the closure registered by `(*Bot).Run` captures: the
receiver, the `sync.Once`, the ready channel; together with the calls made so
far and the panic that ended the process, if any. -/
structure RunState where
  bot : Bot
  onceDone : Bool
  readyClosed : Bool
  events : List Event
  panic : Option String
deriving DecidableEq, Repr

/-- The function passed to `once.Do` in `(*Bot).Run`. -/
def onceBody (w : World) (st : RunState) : RunState :=
  let st1 := { st with readyClosed := true }
  match st1.bot.recoveryKey with
  | none => st1
  | some _ =>
    let r := st1.bot.verifySession w
    match r.outcome with
    | .returned none => { st1 with bot := r.bot, events := st1.events ++ r.events }
    | .returned (some e) =>
      { st1 with bot := r.bot, events := st1.events ++ r.events, panic := some e }
    | .panicked m =>
      { st1 with bot := r.bot, events := st1.events ++ r.events, panic := some m }

/-- The sync listener registered by `(*Bot).Run`: `once.Do` runs its argument
on the first call only (and counts it as done even when it panics); the
listener then returns true.  The result is the state and the returned value,
`none` when the listener panicked. -/
def onSync (w : World) (st : RunState) (_resp : RespSync) (_since : String) :
    RunState × Option Bool :=
  if st.onceDone then (st, some true)
  else
    let st1 := onceBody w { st with onceDone := true }
    match st1.panic with
    | some _ => (st1, none)
    | none => (st1, some true)

/-- Go `(*Bot).Run`, up to the start of the sync goroutine: registers the sync
listener and, when `OnMessage` is set, the message handler.  A nil syncer
panics.  The result is the receiver afterwards and the initial state of the
listener. -/
def Bot.Run (b : Bot) : Except String (Bot × RunState) :=
  match b.syncer with
  | none => .error nilDeref
  | some s =>
    let s1 : DefaultSyncer := { s with syncListeners := s.syncListeners + 1 }
    let s2 : DefaultSyncer :=
      match b.OnMessage with
      | some h => { s1 with eventHandlers := s1.eventHandlers ++ [(EventType.message, h)] }
      | none => s1
    let b1 : Bot := { b with syncer := some s2 }
    .ok (b1, { bot := b1, onceDone := false, readyClosed := false, events := [], panic := none })

/-- Go `(*Bot).RunWithMessageCallback`. -/
def Bot.RunWithMessageCallback (b : Bot) (onMessage : Nat) : Except String (Bot × RunState) :=
  Bot.Run { b with OnMessage := some onMessage }

/-- The sync loop hands the responses to the listener one after the other; a
panic of the listener ends the process, so no later response is handed over. -/
def deliver (w : World) : RunState → List (RespSync × String) → RunState
  | st, [] => st
  | st, (resp, since) :: rest =>
    let st1 := (onSync w st resp since).1
    match st1.panic with
    | some _ => st1
    | none => deliver w st1 rest

/-! ## main.go -/

/-- The values of the SELECT list `accessToken, deviceId, userId, pickleKey`
for a row, in that order. -/
def Row.selected (r : Row) :
    Option String × Option String × Option String × Option Bytes :=
  (r.accessToken, r.deviceId, r.userId, r.pickleKey)

/-- The row that `INSERT INTO credentials VALUES (?, ?, ?, ?)` adds: the four
values go to the columns in table order. -/
def Row.ofValues (v1 v2 v3 : String) (v4 : Bytes) : Row :=
  { accessToken := some v1, deviceId := some v2, userId := some v3, pickleKey := some v4 }

/-- The local variables of `main` after the load step (lines 28 to 46). -/
structure Loaded where
  shouldStore : Bool
  accessToken : String
  deviceId : String
  userId : String
  pickleKey : Option Bytes
deriving DecidableEq, Repr

/-- The error of `Scan` for a NULL in a string destination. -/
def scanNullError (column : Nat) : String :=
  "sql: Scan error on column index " ++ toString column ++
    ": converting NULL to string is unsupported"

/-- Go `res.Scan(&accessToken, &deviceId, &userId, &pickleKey)`: destinations
are filled in the order of the SELECT list; a NULL cannot go into a string, and
a NULL blob leaves the byte slice nil. -/
def scanRow (r : Row) : Except String (String × String × String × Option Bytes) :=
  match r.selected with
  | (none, _, _, _) => .error (scanNullError 0)
  | (some _, none, _, _) => .error (scanNullError 1)
  | (some _, some _, none, _) => .error (scanNullError 2)
  | (some c0, some c1, some c2, c3) => .ok (c0, c1, c2, c3)

/-- Lines 28 to 46 of `main`: `shouldStore` starts true, the strings start
empty and the package-level `pickleKey` starts nil; when the query yields a
row, `shouldStore` becomes false and the first row is scanned.  `res.Next()`
is false both at the end of the result and after a failed fetch, and `main`
does not read `res.Err()`: rows that could not be fetched (`World.unfetched`)
have no part in what `main` does. -/
def mainLoad (w : World) : Except String Loaded × List Event :=
  match w.queryErr with
  | some e => (.error e, [.dbQuery (some e)])
  | none =>
    match w.rows with
    | [] =>
      (.ok { shouldStore := true, accessToken := "", deviceId := "", userId := "",
             pickleKey := none },
        [.dbQuery none])
    | r :: _ =>
      match scanRow r with
      | .error e => (.error e, [.dbQuery none])
      | .ok (accessToken, deviceId, userId, pickleKey) =>
        (.ok { shouldStore := false, accessToken := accessToken, deviceId := deviceId,
               userId := userId, pickleKey := pickleKey },
          [.dbQuery none])

/-- Lines 48 to 56 of `main`. -/
def mainNewBot (cfg : Config) (w : World) (ld : Loaded) : Except String Bot × List Event :=
  if ld.accessToken != "" && ld.deviceId != "" && ld.userId != "" then
    NewBotWithAccessTokenCredentials w cfg.homeserver cfg.displayName
      ld.accessToken ld.userId ld.deviceId
  else
    NewBotWithUsernameAndPassword w cfg.homeserver cfg.displayName cfg.username cfg.password

/-- Go `make([]byte, n)`. -/
def makeBytes (n : Nat) : Bytes :=
  List.replicate n 0

/-- Go `rand.Read(b)`: every position of the slice is overwritten from the
entropy source. -/
def randRead (w : World) (b : Bytes) : Except String Bytes :=
  match w.randErr with
  | some e => .error e
  | none => .ok ((List.range b.length).map w.entropy)

/-- Lines 58 to 64 of `main`. -/
def mainPickleKey (w : World) (pickleKey : Option Bytes) : Except String Bytes × List Event :=
  match pickleKey with
  | some k => (.ok k, [])
  | none =>
    match randRead w (makeBytes 32) with
    | .error e => (.error e, [.randRead 32 (some e)])
    | .ok k => (.ok k, [.randRead 32 none])

/-- Lines 66 to 69 of `main`. -/
def mainConfigure (cfg : Config) (bot : Bot) (pickleKey : Bytes) : Bot :=
  let bot1 := bot.EnableEncryption pickleKey
  if cfg.recoveryKey != "" then bot1.EnableSessionVerification cfg.recoveryKey else bot1

/-- The state of `main` at the call of `bot.Init()` (line 70). -/
structure Setup where
  shouldStore : Bool
  pickleKey : Bytes
  bot : Bot
deriving DecidableEq, Repr

/-- Lines 28 to 69 of `main`: everything before `bot.Init()`.  An error is a
panic. -/
def mainSetup (cfg : Config) (w : World) : Except String Setup × List Event :=
  match mainLoad w with
  | (.error e, t1) => (.error e, t1)
  | (.ok ld, t1) =>
    match mainNewBot cfg w ld with
    | (.error e, t2) => (.error e, t1 ++ t2)
    | (.ok bot, t2) =>
      match mainPickleKey w ld.pickleKey with
      | (.error e, t3) => (.error e, t1 ++ t2 ++ t3)
      | (.ok key, t3) =>
        (.ok { shouldStore := ld.shouldStore, pickleKey := key,
               bot := mainConfigure cfg bot key },
          t1 ++ t2 ++ t3)

/-- How the bootstrap ends: with a panic, or with the bot handed to `Run`. -/
inductive Boot where
  | panicked (msg : String)
  | booted (bot : Bot)
deriving DecidableEq, Repr

/-- One run of the bootstrap: the calls made, the table afterwards, the end.
The table is given as far as the query reads it: the rows the iteration
yielded, followed by the record the run inserted.  Rows behind a failed fetch
(`World.unfetched`) are in the table before and after the run, untouched, and
are not repeated here. -/
structure BootRun where
  trace : List Event
  store : List Row
  outcome : Boot
deriving DecidableEq, Repr

/-- Lines 75 to 80 of `main`. -/
def mainPersist (w : World) (s : Setup) (bot : Bot) (t : List Event) : BootRun :=
  if s.shouldStore then
    match w.insertErr with
    | some e =>
      { trace := t ++ [.dbInsert bot.AccessToken bot.DeviceId bot.UserId s.pickleKey (some e)]
        store := w.rows
        outcome := .panicked e }
    | none =>
      { trace := t ++ [.dbInsert bot.AccessToken bot.DeviceId bot.UserId s.pickleKey none]
        store := w.rows ++ [Row.ofValues bot.AccessToken bot.DeviceId bot.UserId s.pickleKey]
        outcome := .booted bot }
  else
    { trace := t, store := w.rows, outcome := .booted bot }

/-- Go `main`, lines 28 to 80: the bootstrap, up to the start of the sync
goroutine. -/
def main (cfg : Config) (w : World) : BootRun :=
  match mainSetup cfg w with
  | (.error e, t) => { trace := t, store := w.rows, outcome := .panicked e }
  | (.ok s, t) =>
    let r := s.bot.Init w
    match r.err with
    | some e => { trace := t ++ r.events, store := w.rows, outcome := .panicked e }
    | none => mainPersist w s r.bot (t ++ r.events)

/-! ## Observations on traces -/

/-- The event is a password login call. -/
def Event.isLogin : Event → Bool
  | .login _ _ _ => true
  | _ => false

/-- The event is an INSERT into the credential store. -/
def Event.isInsert : Event → Bool
  | .dbInsert _ _ _ _ _ => true
  | _ => false

/-- The event is a call of the encryption initialisation: the construction of
the crypto helper or its `Init`. -/
def Event.isEncryption : Event → Bool
  | .newCryptoHelper _ _ _ => true
  | .cryptoInit _ => true
  | _ => false

/-- The event is a call of `SetDisplayName`. -/
def Event.isSetDisplayName : Event → Bool
  | .setDisplayName _ _ => true
  | _ => false

/-- The event is an entry into `verifySession`. -/
def Event.isVerifySession : Event → Bool
  | .verifySession => true
  | _ => false

/-- Number of entries into `verifySession` in a list of events. -/
def verifyCount (t : List Event) : Nat :=
  t.countP Event.isVerifySession

/-! ## Concrete worlds -/

/-- A homeserver that accepts every call; the table is empty. -/
def freshWorld : World :=
  { rows := []
    unfetched := []
    fetchErr := none
    queryErr := none
    insertErr := none
    newClientErr := fun _ => none
    entropy := fun i => Fin.ofNat (7 * i + 3)
    randErr := none
    login := fun _ => Except.ok { AccessToken := "syt_token", DeviceID := "DEVICE1", UserID := "@bot:example.org" }
    newCryptoHelperErr := fun _ _ => none
    cryptoInitErr := fun _ => none
    setDisplayNameErr := fun _ => none
    getDefaultKeyData := Except.ok ("ssss1", [1, 2, 3])
    verifyRecoveryKey := fun _ _ _ => Except.ok [9, 9]
    fetchCrossSigningKeysErr := fun _ => none
    signOwnDeviceErr := none
    signOwnMasterKeyErr := none
    sendMessageEventErr := fun room _ _ => if room = "!gone:example.org" then some "M_FORBIDDEN" else none }

/-- A configuration with a recovery key. -/
def sampleConfig : Config :=
  { homeserver := "https://example.org", displayName := "Bot", username := "bot",
    password := "hunter2", recoveryKey := "EsTc 1234" }

/-- A bot with neither credentials nor identity. -/
def emptyBot : Bot :=
  { DisplayName := "Bot", Homeserver := "https://example.org", Username := "", password := "",
    AccessToken := "", UserId := "", DeviceId := "",
    matrix := { HomeserverURL := "https://example.org", AccessToken := "", UserID := "",
                DeviceID := "", Syncer := none, Crypto := none },
    ctx := none, DbPath := "matrix_bot.db", encryptionPickleKey := none, recoveryKey := none,
    syncer := none, cryptoHelper := none, OnMessage := none }

/-- The key a first run on `freshWorld` generates. -/
def sampleKey : Bytes :=
  (List.range 32).map freshWorld.entropy

/-- The answer of the login endpoint of `freshWorld`. -/
def sampleLogin : RespLogin :=
  { AccessToken := "syt_token", DeviceID := "DEVICE1", UserID := "@bot:example.org" }

/-- The world of a restart: the table holds the record of the first run, and
the login endpoint would reject a login. -/
def storedWorld : World :=
  { freshWorld with
    rows := [{ accessToken := some "syt_token", deviceId := some "DEVICE1",
               userId := some "@bot:example.org", pickleKey := some sampleKey }]
    login := fun _ => Except.error "M_FORBIDDEN" }

/-- A world whose table holds a record with an empty access token. -/
def incompleteWorld : World :=
  { freshWorld with
    rows := [{ accessToken := some "", deviceId := some "DEVICE0",
               userId := some "@bot:example.org", pickleKey := some [1, 2, 3] }] }

/-- A restart on which the stored record cannot be read: the table holds the
complete record of a first run, the query itself succeeds, and the fetch of
the row fails, so that the iteration yields nothing.  The homeserver accepts
a login and hands out a second device. -/
def fetchFailedWorld : World :=
  { freshWorld with
    rows := []
    unfetched := [{ accessToken := some "syt_token", deviceId := some "DEVICE1",
                    userId := some "@bot:example.org", pickleKey := some sampleKey }]
    fetchErr := some "database is locked"
    entropy := fun i => Fin.ofNat (11 * i + 5)
    login := fun _ =>
      Except.ok { AccessToken := "syt_second", DeviceID := "DEVICE2",
                  UserID := "@bot:example.org" } }

/-- A world in which the crypto helper cannot be initialised. -/
def brokenCryptoWorld : World :=
  { freshWorld with cryptoInitErr := fun _ => some "olm account is locked" }

/-- A bot after a successful `Init`, with a recovery key. -/
def verifiedBot : Bot :=
  { emptyBot with
    AccessToken := "syt_token", UserId := "@bot:example.org", DeviceId := "DEVICE1"
    syncer := some NewDefaultSyncer
    recoveryKey := some "EsTc 1234"
    cryptoHelper := some { pickleKey := sampleKey, dbPath := "matrix_bot.db", initialised := true } }

/-- The login request `main` leads to under `sampleConfig`. -/
def sampleConfigRequest : ReqLogin :=
  { type := AuthType.password
    identifier := { type := IdentifierType.user, user := "bot" }
    password := "hunter2", storeCredentials := true, storeHomeserverURL := true }

/-- Three sync responses with their since tokens. -/
def sampleResps : List (RespSync × String) :=
  [({ NextBatch := "s1" }, ""), ({ NextBatch := "s2" }, "s1"), ({ NextBatch := "s3" }, "s2")]

/-! ## Lemmas and claims -/

theorem getCtx_snd (b : Bot) :
    b.getCtx.2 = { b with ctx := some (b.ctx.getD Ctx.background) } := by
  obtain ⟨dn, hs, un, pw, tok, ui, di, m, ctx, db, ek, rk, sy, ch, om⟩ := b
  cases ctx <;> rfl

theorem identityIncomplete_iff (b : Bot) :
    b.identityIncomplete = true ↔
      (b.AccessToken = "" ∨ b.UserId = "" ∨ b.DeviceId = "") := by
  simp [Bot.identityIncomplete, or_assoc]

theorem identityIncomplete_false_iff (b : Bot) :
    b.identityIncomplete = false ↔
      (b.AccessToken ≠ "" ∧ b.UserId ≠ "" ∧ b.DeviceId ≠ "") := by
  simp [Bot.identityIncomplete, and_assoc]

theorem wantsLogin_iff (b : Bot) :
    b.wantsLogin = true ↔
      b.Username ≠ "" ∧ b.password ≠ "" ∧
        (b.AccessToken = "" ∨ b.UserId = "" ∨ b.DeviceId = "") := by
  simp [Bot.wantsLogin, identityIncomplete_iff, and_assoc]

/-- Shape of `login`. -/
theorem login_spec (w : World) (b : Bot) :
    (∃ e, w.login b.loginRequest = Except.error e ∧
        b.login w = { err := some e, bot := b.getCtx.2,
                      events := [Event.login b.loginRequest none (some e)] }) ∨
    (∃ resp, w.login b.loginRequest = Except.ok resp ∧
        b.login w =
          { err := none
            bot :=
              { b.getCtx.2 with
                AccessToken := resp.AccessToken, UserId := resp.UserID, DeviceId := resp.DeviceID
                matrix := { b.matrix with AccessToken := resp.AccessToken, UserID := resp.UserID,
                                          DeviceID := resp.DeviceID } }
            events := [Event.login b.loginRequest (some resp) none] }) := by
  have hreq : b.getCtx.2.loginRequest = b.loginRequest := by
    simp [getCtx_snd, Bot.loginRequest]
  cases h : w.login b.loginRequest with
  | error e =>
    left
    exact ⟨e, rfl, by simp only [Bot.login, hreq, h]⟩
  | ok resp =>
    right
    refine ⟨resp, rfl, ?_⟩
    simp only [Bot.login, hreq, h]
    simp [getCtx_snd]

/-- Shape of the encryption step. -/
theorem encryptionStep_spec (w : World) (b : Bot) :
    (b.encryptionPickleKey = none ∧ b.encryptionStep w = { err := none, bot := b, events := [] }) ∨
    (∃ key e, b.encryptionPickleKey = some key ∧ w.newCryptoHelperErr key b.DbPath = some e ∧
        b.encryptionStep w =
          { err := some e, bot := b, events := [Event.newCryptoHelper key b.DbPath (some e)] }) ∨
    (∃ key e, b.encryptionPickleKey = some key ∧ w.newCryptoHelperErr key b.DbPath = none ∧
        w.cryptoInitErr key = some e ∧
        b.encryptionStep w =
          { err := some e, bot := b.getCtx.2
            events := [Event.newCryptoHelper key b.DbPath none, Event.cryptoInit (some e)] }) ∨
    (∃ key, b.encryptionPickleKey = some key ∧ w.newCryptoHelperErr key b.DbPath = none ∧
        w.cryptoInitErr key = none ∧
        b.encryptionStep w =
          { err := none
            bot :=
              { b.getCtx.2 with
                cryptoHelper := some { pickleKey := key, dbPath := b.DbPath, initialised := true }
                matrix := { b.matrix with Crypto := some Ptr.cryptoHelper } }
            events := [Event.newCryptoHelper key b.DbPath none, Event.cryptoInit none] }) := by
  cases hk : b.encryptionPickleKey with
  | none => left; simp [Bot.encryptionStep, hk]
  | some key =>
    right
    cases h1 : w.newCryptoHelperErr key b.DbPath with
    | some e => left; exact ⟨key, e, rfl, h1, by simp [Bot.encryptionStep, hk, Bot.initializeEncryption, h1]⟩
    | none =>
      right
      cases h2 : w.cryptoInitErr key with
      | some e =>
        left
        exact ⟨key, e, rfl, h1, h2, by simp [Bot.encryptionStep, hk, Bot.initializeEncryption, h1, h2]⟩
      | none =>
        right
        exact ⟨key, rfl, h1, h2, by simp [Bot.encryptionStep, hk, Bot.initializeEncryption, h1, h2, getCtx_snd]⟩

/-- Shape of the login step. -/
theorem loginStep_spec (w : World) (b : Bot) :
    (b.wantsLogin = false ∧ b.loginStep w = { err := none, bot := b, events := [] }) ∨
    (b.wantsLogin = true ∧ b.loginStep w = b.login w) := by
  cases h : b.wantsLogin <;> simp [Bot.loginStep, h]

/-- Shape of `Init`, by the place where it returns. -/
theorem Init_spec (w : World) (b : Bot) :
    (∃ e, (b.loginStep w).err = some e ∧
        b.Init w = { err := some e, bot := (b.loginStep w).bot, events := (b.loginStep w).events }) ∨
    ((b.loginStep w).err = none ∧ (b.loginStep w).bot.identityIncomplete = true ∧
        b.Init w = { err := some initConfigError, bot := (b.loginStep w).bot,
                     events := (b.loginStep w).events }) ∨
    ((b.loginStep w).err = none ∧ (b.loginStep w).bot.identityIncomplete = false ∧
      ∃ r2 : Ret,
        r2 = Bot.encryptionStep w
              { (b.loginStep w).bot with
                syncer := some NewDefaultSyncer
                matrix := { (b.loginStep w).bot.matrix with Syncer := some Ptr.syncer } } ∧
        ((∃ e, r2.err = some e ∧
            b.Init w = { err := some e, bot := r2.bot,
                         events := (b.loginStep w).events ++ r2.events }) ∨
         (r2.err = none ∧
            b.Init w =
              { err := w.setDisplayNameErr r2.bot.DisplayName
                bot := r2.bot.getCtx.2
                events := (b.loginStep w).events ++ r2.events ++
                  [Event.setDisplayName r2.bot.DisplayName
                    (w.setDisplayNameErr r2.bot.DisplayName)] }))) := by
  cases h1 : (b.loginStep w).err with
  | some e => left; exact ⟨e, rfl, by simp [Bot.Init, h1]⟩
  | none =>
    right
    cases h2 : (b.loginStep w).bot.identityIncomplete with
    | true => left; exact ⟨rfl, rfl, by simp [Bot.Init, h1, h2]⟩
    | false =>
      right
      refine ⟨rfl, rfl, _, rfl, ?_⟩
      cases h3 : (Bot.encryptionStep w
              { (b.loginStep w).bot with
                syncer := some NewDefaultSyncer
                matrix := { (b.loginStep w).bot.matrix with Syncer := some Ptr.syncer } }).err with
      | some e => left; exact ⟨e, rfl, by simp [Bot.Init, h1, h2, h3]⟩
      | none => right; exact ⟨rfl, by simp [Bot.Init, h1, h2, h3, getCtx_snd]⟩

/-- The bot `NewBot` returns when the client can be built. -/
theorem NewBot_ok (w : World) (hs dn : String) (b : Bot) (t : List Event)
    (h : NewBot w hs dn = (Except.ok b, t)) :
    w.newClientErr hs = none ∧ t = [Event.newClient hs none] ∧
      b = { DisplayName := dn, Homeserver := hs, Username := "", password := "",
            AccessToken := "", UserId := "", DeviceId := "",
            matrix := { HomeserverURL := hs, AccessToken := "", UserID := "", DeviceID := "",
                        Syncer := none, Crypto := none },
            ctx := none, DbPath := "matrix_bot.db", encryptionPickleKey := none,
            recoveryKey := none, syncer := none, cryptoHelper := none, OnMessage := none } := by
  unfold NewBot at h
  cases hc : w.newClientErr hs with
  | some e => simp [hc] at h
  | none =>
    simp only [hc, Prod.mk.injEq, Except.ok.injEq] at h
    exact ⟨rfl, h.2.symm, h.1.symm⟩

theorem mainLoad_ok (w : World) (ld : Loaded) (t : List Event)
    (h : mainLoad w = (Except.ok ld, t)) :
    w.queryErr = none ∧ t = [Event.dbQuery none] ∧
      ((w.rows = [] ∧ ld = { shouldStore := true, accessToken := "", deviceId := "",
                             userId := "", pickleKey := none }) ∨
       (∃ r rest, w.rows = r :: rest ∧ r.accessToken = some ld.accessToken ∧
          r.deviceId = some ld.deviceId ∧ r.userId = some ld.userId ∧
          ld.pickleKey = r.pickleKey ∧ ld.shouldStore = false)) := by
  unfold mainLoad at h
  cases hq : w.queryErr with
  | some e => simp [hq] at h
  | none =>
    simp only [hq] at h
    cases hr : w.rows with
    | nil =>
      simp only [hr, Prod.mk.injEq, Except.ok.injEq] at h
      exact ⟨rfl, h.2.symm, Or.inl ⟨rfl, h.1.symm⟩⟩
    | cons r rest =>
      simp only [hr] at h
      obtain ⟨a, d, u, k⟩ := r
      cases a <;> cases d <;> cases u <;>
        simp [scanRow, Row.selected] at h
      obtain ⟨h1, h2⟩ := h
      subst h1
      exact ⟨rfl, h2.symm, Or.inr ⟨_, _, rfl, rfl, rfl, rfl, rfl, rfl⟩⟩

theorem mainPickleKey_ok (w : World) (pk : Option Bytes) (key : Bytes) (t : List Event)
    (h : mainPickleKey w pk = (Except.ok key, t)) :
    (pk = some key ∧ t = []) ∨
    (pk = none ∧ w.randErr = none ∧ key = (List.range 32).map w.entropy ∧
      t = [Event.randRead 32 none]) := by
  unfold mainPickleKey at h
  cases pk with
  | some k =>
    simp only [Prod.mk.injEq, Except.ok.injEq] at h
    left; exact ⟨by rw [h.1], h.2.symm⟩
  | none =>
    right
    cases hr : w.randErr with
    | some e => simp [randRead, hr] at h
    | none =>
      simp [randRead, hr, makeBytes] at h
      exact ⟨rfl, rfl, h.1.symm, h.2.symm⟩

theorem mainNewBot_ok (cfg : Config) (w : World) (ld : Loaded) (bot0 : Bot) (t : List Event)
    (h : mainNewBot cfg w ld = (Except.ok bot0, t)) :
    t = [Event.newClient cfg.homeserver none] ∧
      ∃ base, NewBot w cfg.homeserver cfg.displayName = (Except.ok base, t) ∧
        bot0 =
          if (ld.accessToken != "" && ld.deviceId != "" && ld.userId != "") = true then
            base.SetAccessTokenCredentials ld.accessToken ld.userId ld.deviceId
          else base.SetUsernamePassword cfg.username cfg.password := by
  unfold mainNewBot at h
  rcases hN : NewBot w cfg.homeserver cfg.displayName with ⟨rN, tN⟩
  cases rN with
  | error e =>
    simp only [NewBotWithAccessTokenCredentials, NewBotWithUsernameAndPassword, hN] at h
    split at h <;> simp at h
  | ok base =>
    have hb := NewBot_ok w _ _ _ _ hN
    simp only [NewBotWithAccessTokenCredentials, NewBotWithUsernameAndPassword, hN] at h
    split at h
    · next hc =>
      simp only [Prod.mk.injEq, Except.ok.injEq] at h
      refine ⟨by rw [← h.2, hb.2.1], base, by rw [h.2], ?_⟩
      rw [if_pos hc, h.1]
    · next hc =>
      simp only [Prod.mk.injEq, Except.ok.injEq] at h
      refine ⟨by rw [← h.2, hb.2.1], base, by rw [h.2], ?_⟩
      rw [if_neg hc, h.1]

theorem mainSetup_ok (cfg : Config) (w : World) (s : Setup) (t : List Event)
    (h : mainSetup cfg w = (Except.ok s, t)) :
    ∃ ld bot0 tk, mainLoad w = (Except.ok ld, [Event.dbQuery none]) ∧
      mainNewBot cfg w ld = (Except.ok bot0, [Event.newClient cfg.homeserver none]) ∧
      mainPickleKey w ld.pickleKey = (Except.ok s.pickleKey, tk) ∧
      s.shouldStore = ld.shouldStore ∧ s.bot = mainConfigure cfg bot0 s.pickleKey ∧
      t = [Event.dbQuery none, Event.newClient cfg.homeserver none] ++ tk := by
  unfold mainSetup at h
  rcases hL : mainLoad w with ⟨rL, t1⟩
  cases rL with
  | error e => simp [hL] at h
  | ok ld =>
    have hl := mainLoad_ok w ld t1 hL
    simp only [hL] at h
    rcases hB : mainNewBot cfg w ld with ⟨rB, t2⟩
    cases rB with
    | error e => simp [hB] at h
    | ok bot0 =>
      have hb := mainNewBot_ok cfg w ld bot0 t2 hB
      simp only [hB] at h
      rcases hK : mainPickleKey w ld.pickleKey with ⟨rK, t3⟩
      cases rK with
      | error e => simp [hK] at h
      | ok key =>
        simp only [hK, Prod.mk.injEq, Except.ok.injEq] at h
        obtain ⟨h1, h2⟩ := h
        subst h1
        refine ⟨ld, bot0, t3, by rw [hl.2.1], by first | rw [hb.1] | rw [hB, hb.1], hK, rfl, rfl, ?_⟩
        rw [← h2, hl.2.1, hb.1]
        rfl

/-- The three ways `main` ends. -/
theorem main_cases (cfg : Config) (w : World) :
    (∃ e t, mainSetup cfg w = (Except.error e, t) ∧
        main cfg w = { trace := t, store := w.rows, outcome := Boot.panicked e }) ∨
    (∃ s t e, mainSetup cfg w = (Except.ok s, t) ∧ (s.bot.Init w).err = some e ∧
        main cfg w = { trace := t ++ (s.bot.Init w).events, store := w.rows,
                       outcome := Boot.panicked e }) ∨
    (∃ s t, mainSetup cfg w = (Except.ok s, t) ∧ (s.bot.Init w).err = none ∧
        main cfg w = mainPersist w s (s.bot.Init w).bot (t ++ (s.bot.Init w).events)) := by
  unfold main
  rcases hS : mainSetup cfg w with ⟨rS, t⟩
  cases rS with
  | error e => left; exact ⟨e, t, rfl, rfl⟩
  | ok s =>
    right
    cases hI : (s.bot.Init w).err with
    | some e => left; exact ⟨s, t, e, rfl, hI, by simp [hI]⟩
    | none => right; exact ⟨s, t, rfl, hI, by simp [hI]⟩

theorem mainLoad_events (w : World) : (mainLoad w).2 = [Event.dbQuery w.queryErr] := by
  unfold mainLoad
  cases w.queryErr with
  | some e => rfl
  | none =>
    cases w.rows with
    | nil => rfl
    | cons r rest =>
      simp only
      cases scanRow r <;> rfl

theorem mainNewBot_events (cfg : Config) (w : World) (ld : Loaded) :
    (mainNewBot cfg w ld).2 =
      [Event.newClient cfg.homeserver (w.newClientErr cfg.homeserver)] := by
  unfold mainNewBot NewBotWithAccessTokenCredentials NewBotWithUsernameAndPassword NewBot
  cases w.newClientErr cfg.homeserver with
  | some e => simp
  | none => simp only []; split <;> rfl

theorem mainPickleKey_events (w : World) (pk : Option Bytes) :
    (mainPickleKey w pk).2 = [] ∨ (mainPickleKey w pk).2 = [Event.randRead 32 w.randErr] := by
  unfold mainPickleKey randRead
  cases pk with
  | some k => left; rfl
  | none => right; cases w.randErr <;> rfl

/-- Every call before `Init` goes to the database query, the client
constructor or the entropy source. -/
theorem mainSetup_events (cfg : Config) (w : World) :
    ∀ ev ∈ (mainSetup cfg w).2,
      ev = Event.dbQuery w.queryErr ∨
        ev = Event.newClient cfg.homeserver (w.newClientErr cfg.homeserver) ∨
        ev = Event.randRead 32 w.randErr := by
  intro ev hev
  unfold mainSetup at hev
  have hL := mainLoad_events w
  rcases hLd : mainLoad w with ⟨rL, t1⟩
  rw [hLd] at hL hev
  simp only at hL
  subst hL
  cases rL with
  | error e => simp at hev; exact Or.inl hev
  | ok ld =>
    have hB := mainNewBot_events cfg w ld
    rcases hBd : mainNewBot cfg w ld with ⟨rB, t2⟩
    rw [hBd] at hB
    simp only at hB hev
    rw [hBd] at hev
    subst hB
    cases rB with
    | error e => simp at hev; rcases hev with h | h <;> simp [h]
    | ok bot0 =>
      have hK := mainPickleKey_events w ld.pickleKey
      rcases hKd : mainPickleKey w ld.pickleKey with ⟨rK, t3⟩
      rw [hKd] at hK
      simp only at hK hev
      rw [hKd] at hev
      cases rK <;> rcases hK with rfl | rfl <;> simp at hev <;> tauto

/-- No call before `Init` is a login, an INSERT, an encryption call or a display
name call. -/
theorem mainSetup_events_kind (cfg : Config) (w : World) :
    ∀ ev ∈ (mainSetup cfg w).2,
      ev.isLogin = false ∧ ev.isInsert = false ∧ ev.isEncryption = false ∧
        ev.isSetDisplayName = false := by
  intro ev hev
  rcases mainSetup_events cfg w ev hev with h | h | h <;> subst h <;>
    simp [Event.isLogin, Event.isInsert, Event.isEncryption, Event.isSetDisplayName]

/-- The login step leaves every field but the identity, the client and the
context alone. -/
theorem loginStep_frame (w : World) (b : Bot) :
    (b.loginStep w).bot.encryptionPickleKey = b.encryptionPickleKey ∧
      (b.loginStep w).bot.DbPath = b.DbPath ∧
      (b.loginStep w).bot.DisplayName = b.DisplayName ∧
      (b.loginStep w).bot.recoveryKey = b.recoveryKey ∧
      (b.loginStep w).bot.cryptoHelper = b.cryptoHelper ∧
      (b.loginStep w).bot.syncer = b.syncer ∧
      (b.loginStep w).bot.OnMessage = b.OnMessage := by
  rcases loginStep_spec w b with ⟨_, h⟩ | ⟨_, h⟩
  · simp [h]
  · rcases login_spec w b with ⟨e, _, hl⟩ | ⟨resp, _, hl⟩ <;>
      simp [h, hl, getCtx_snd]

/-- The calls of the login step: none, or the one login call. -/
theorem loginStep_events (w : World) (b : Bot) :
    (b.wantsLogin = false ∧ (b.loginStep w).events = [] ∧ (b.loginStep w).bot = b ∧
        (b.loginStep w).err = none) ∨
    (b.wantsLogin = true ∧ ∃ e, w.login b.loginRequest = Except.error e ∧
        (b.loginStep w).events = [Event.login b.loginRequest none (some e)] ∧
        (b.loginStep w).err = some e) ∨
    (b.wantsLogin = true ∧ ∃ resp, w.login b.loginRequest = Except.ok resp ∧
        (b.loginStep w).events = [Event.login b.loginRequest (some resp) none] ∧
        (b.loginStep w).err = none ∧
        (b.loginStep w).bot.AccessToken = resp.AccessToken ∧
        (b.loginStep w).bot.UserId = resp.UserID ∧
        (b.loginStep w).bot.DeviceId = resp.DeviceID) := by
  rcases loginStep_spec w b with ⟨hw, h⟩ | ⟨hw, h⟩
  · left; simp [h, hw]
  · right
    rcases login_spec w b with ⟨e, he, hl⟩ | ⟨resp, he, hl⟩
    · left; exact ⟨hw, e, he, by simp [h, hl], by simp [h, hl]⟩
    · right; exact ⟨hw, resp, he, by simp [h, hl], by simp [h, hl], by simp [h, hl],
        by simp [h, hl], by simp [h, hl]⟩

/-- What a successful `Init` has done. -/
theorem Init_ok (w : World) (b : Bot) (h : (b.Init w).err = none) :
    (b.loginStep w).err = none ∧
      (b.loginStep w).bot.identityIncomplete = false ∧
      (b.Init w).bot.AccessToken = (b.loginStep w).bot.AccessToken ∧
      (b.Init w).bot.UserId = (b.loginStep w).bot.UserId ∧
      (b.Init w).bot.DeviceId = (b.loginStep w).bot.DeviceId ∧
      (b.Init w).bot.recoveryKey = b.recoveryKey ∧
      (b.Init w).bot.syncer = some NewDefaultSyncer ∧
      (b.Init w).bot.cryptoHelper =
        (match b.encryptionPickleKey with
          | some key => some { pickleKey := key, dbPath := b.DbPath, initialised := true }
          | none => b.cryptoHelper) ∧
      (b.Init w).events =
        (b.loginStep w).events ++
          (match b.encryptionPickleKey with
            | some key => [Event.newCryptoHelper key b.DbPath none, Event.cryptoInit none]
            | none => []) ++
          [Event.setDisplayName b.DisplayName none] := by
  obtain ⟨f1, f2, f3, f4, f5, f6, f7⟩ := loginStep_frame w b
  rcases Init_spec w b with ⟨e, _, hI⟩ | ⟨_, _, hI⟩ | ⟨h1, h2, r2, hr2, hI⟩
  · rw [hI] at h; simp at h
  · rw [hI] at h; simp at h
  · rcases hI with ⟨e, _, hI⟩ | ⟨h3, hI⟩
    · rw [hI] at h; simp at h
    · rw [hI] at h
      simp only at h
      refine ⟨h1, h2, ?_⟩
      rcases encryptionStep_spec w
          { (b.loginStep w).bot with
            syncer := some NewDefaultSyncer
            matrix := { (b.loginStep w).bot.matrix with Syncer := some Ptr.syncer } }
        with ⟨hk, hE⟩ | ⟨key, e, hk, _, hE⟩ | ⟨key, e, hk, _, _, hE⟩ | ⟨key, hk, _, _, hE⟩
      · rw [← hr2] at hE
        simp only [f1] at hk
        simp [hI, hE, getCtx_snd, hk, f3, f4, f5, h]
        simpa [hE, f3] using h
      · rw [← hr2] at hE; rw [hE] at h3; simp at h3
      · rw [← hr2] at hE; rw [hE] at h3; simp at h3
      · rw [← hr2] at hE
        simp only [f1] at hk
        simp [hI, hE, getCtx_snd, hk, f2, f3, f4, h]
        simpa [hE, f3, getCtx_snd] using h

/-- After the login step `Init` makes encryption and display name calls
only, and the display name call is the one whose answer `Init` returns. -/
theorem Init_events_shape (w : World) (b : Bot) :
    ∃ rest, (b.Init w).events = (b.loginStep w).events ++ rest ∧
      (∀ ev ∈ rest, ev.isEncryption = true ∨ ev.isSetDisplayName = true) ∧
      (∀ n, Event.setDisplayName n none ∈ rest → (b.Init w).err = none) ∧
      (∀ k p e, Event.newCryptoHelper k p (some e) ∈ rest → (b.Init w).err = some e) ∧
      (∀ e, Event.cryptoInit (some e) ∈ rest → (b.Init w).err = some e) := by
  rcases Init_spec w b with ⟨e, _, hI⟩ | ⟨_, _, hI⟩ | ⟨h1, h2, r2, hr2, hI⟩
  · exact ⟨[], by simp [hI], by simp, by simp, by simp, by simp⟩
  · exact ⟨[], by simp [hI], by simp, by simp, by simp, by simp⟩
  · rcases encryptionStep_spec w
          { (b.loginStep w).bot with
            syncer := some NewDefaultSyncer
            matrix := { (b.loginStep w).bot.matrix with Syncer := some Ptr.syncer } }
        with ⟨hk, hE⟩ | ⟨key, e, hk, _, hE⟩ | ⟨key, e, hk, _, _, hE⟩ | ⟨key, hk, _, _, hE⟩ <;>
      rw [← hr2] at hE <;>
      rcases hI with ⟨e2, h3, hI⟩ | ⟨h3, hI⟩
    all_goals first
      | (rw [hE] at h3; simp at h3; done)
      | skip
    · refine ⟨[Event.setDisplayName r2.bot.DisplayName (w.setDisplayNameErr r2.bot.DisplayName)],
        by simp [hI, hE], by simp [Event.isSetDisplayName], ?_, by simp, by simp⟩
      intro n hn
      simp at hn
      simp [hI, ← hn.2]
    · rw [hE] at h3
      simp at h3
      subst h3
      refine ⟨r2.events, by simp [hI], by simp [hE, Event.isEncryption], by simp [hE],
        ?_, by simp [hE]⟩
      intro k p e2 hm
      simp [hE] at hm
      simp [hI, hm]
    · rw [hE] at h3
      simp at h3
      subst h3
      refine ⟨r2.events, by simp [hI], by simp [hE, Event.isEncryption], by simp [hE],
        by simp [hE], ?_⟩
      intro e2 hm
      simp [hE] at hm
      simp [hI, hm]
    · refine ⟨r2.events ++
          [Event.setDisplayName r2.bot.DisplayName (w.setDisplayNameErr r2.bot.DisplayName)],
        by simp [hI], ?_, ?_, by simp [hE], by simp [hE]⟩
      · intro ev hev
        simp [hE] at hev
        rcases hev with rfl | rfl | rfl <;> simp [Event.isEncryption, Event.isSetDisplayName]
      · intro n hn
        simp [hE] at hn
        simp [hI, ← hn.2, hE]

theorem loginStep_events_kind (w : World) (b : Bot) :
    ∀ ev ∈ (b.loginStep w).events, ev.isLogin = true := by
  intro ev hev
  rcases loginStep_events w b with ⟨_, h, _⟩ | ⟨_, e, _, h, _⟩ | ⟨_, r, _, h, _⟩ <;>
    rw [h] at hev <;> simp at hev
  all_goals subst hev; rfl

theorem kind_exclusive (ev : Event) (h : ev.isEncryption = true ∨ ev.isSetDisplayName = true) :
    ev.isLogin = false ∧ ev.isInsert = false := by
  cases ev <;> simp_all [Event.isEncryption, Event.isSetDisplayName, Event.isLogin,
    Event.isInsert]

theorem Init_no_insert (w : World) (b : Bot) :
    ∀ ev ∈ (b.Init w).events, ev.isInsert = false := by
  intro ev hev
  obtain ⟨rest, hr, hk, _⟩ := Init_events_shape w b
  rw [hr] at hev
  rcases List.mem_append.mp hev with h | h
  · have := loginStep_events_kind w b ev h
    cases ev <;> simp_all [Event.isLogin, Event.isInsert]
  · exact (kind_exclusive ev (hk ev h)).2

theorem Init_filter_login (w : World) (b : Bot) :
    (b.Init w).events.filter Event.isLogin = (b.loginStep w).events := by
  obtain ⟨rest, hr, hk, _⟩ := Init_events_shape w b
  rw [hr, List.filter_append]
  have h1 : (b.loginStep w).events.filter Event.isLogin = (b.loginStep w).events :=
    List.filter_eq_self.mpr (loginStep_events_kind w b)
  have h2 : rest.filter Event.isLogin = [] :=
    List.filter_eq_nil_iff.mpr (fun ev hev => by simp [(kind_exclusive ev (hk ev hev)).1])
  rw [h1, h2, List.append_nil]

theorem main_of_setup_err (cfg : Config) (w : World) (e : String) (t : List Event)
    (h : mainSetup cfg w = (Except.error e, t)) :
    main cfg w = { trace := t, store := w.rows, outcome := Boot.panicked e } := by
  simp [main, h]

theorem main_of_init_err (cfg : Config) (w : World) (s : Setup) (t : List Event) (e : String)
    (h : mainSetup cfg w = (Except.ok s, t)) (hI : (s.bot.Init w).err = some e) :
    main cfg w = { trace := t ++ (s.bot.Init w).events, store := w.rows,
                   outcome := Boot.panicked e } := by
  simp [main, h, hI]

theorem main_of_init_ok (cfg : Config) (w : World) (s : Setup) (t : List Event)
    (h : mainSetup cfg w = (Except.ok s, t)) (hI : (s.bot.Init w).err = none) :
    main cfg w = mainPersist w s (s.bot.Init w).bot (t ++ (s.bot.Init w).events) := by
  simp [main, h, hI]

/-- C9.  Sending a message.  For every bot, text and room identifier (empty
or not): `SendMessage` makes exactly one call, a `SendMessageEvent` for that
room with event type message and a content of kind text whose body is the
given text; it returns what that call returned, nil when the collaborator
accepts and the error of the collaborator when it rejects; and it leaves the
bot as it was. -/
theorem sendMessage_single_call (w : World) (b : Bot) (text roomID : String) :
    (b.SendMessage w text roomID).events =
        [Event.sendMessageEvent roomID EventType.message
          { MsgType := MessageType.text, Body := text }
          (w.sendMessageEventErr roomID EventType.message
            { MsgType := MessageType.text, Body := text })] ∧
      (b.SendMessage w text roomID).err =
        w.sendMessageEventErr roomID EventType.message
          { MsgType := MessageType.text, Body := text } ∧
      (b.SendMessage w text roomID).bot = b := by
  simp only [Bot.SendMessage]
  split <;> simp_all

/-- Witness for C9: an accepted and a rejected message. -/
theorem sendMessage_single_call_witness :
    (emptyBot.SendMessage freshWorld "hi" "!room:example.org").err = none ∧
    (emptyBot.SendMessage freshWorld "hi" "!gone:example.org").err = some "M_FORBIDDEN" ∧
    (emptyBot.SendMessage freshWorld "hi" "!gone:example.org").events =
        [Event.sendMessageEvent "!gone:example.org" EventType.message
          { MsgType := MessageType.text, Body := "hi" } (some "M_FORBIDDEN")] := by
  have h1 := sendMessage_single_call freshWorld emptyBot "hi" "!room:example.org"
  have h2 := sendMessage_single_call freshWorld emptyBot "hi" "!gone:example.org"
  refine ⟨?_, ?_, ?_⟩
  · rw [h1.2.1]; decide
  · rw [h2.2.1]; decide
  · rw [h2.1]; decide

/-- The bot handed to `Init`, field by field. -/
theorem setup_bot (cfg : Config) (w : World) (s : Setup) (t : List Event)
    (h : mainSetup cfg w = (Except.ok s, t)) :
    ∃ ld tk, mainLoad w = (Except.ok ld, [Event.dbQuery none]) ∧
      mainPickleKey w ld.pickleKey = (Except.ok s.pickleKey, tk) ∧
      t = [Event.dbQuery none, Event.newClient cfg.homeserver none] ++ tk ∧
      s.shouldStore = ld.shouldStore ∧
      s.bot.recoveryKey = (if cfg.recoveryKey = "" then none else some cfg.recoveryKey) ∧
      s.bot.encryptionPickleKey = some s.pickleKey ∧
      s.bot.DbPath = "matrix_bot.db" ∧
      s.bot.DisplayName = cfg.displayName ∧
      s.bot.cryptoHelper = none ∧
      ((ld.accessToken ≠ "" ∧ ld.deviceId ≠ "" ∧ ld.userId ≠ "") →
        s.bot.AccessToken = ld.accessToken ∧ s.bot.UserId = ld.userId ∧
        s.bot.DeviceId = ld.deviceId ∧ s.bot.matrix.AccessToken = ld.accessToken ∧
        s.bot.matrix.UserID = ld.userId ∧ s.bot.matrix.DeviceID = ld.deviceId ∧
        s.bot.Username = "" ∧ s.bot.password = "") ∧
      (¬ (ld.accessToken ≠ "" ∧ ld.deviceId ≠ "" ∧ ld.userId ≠ "") →
        s.bot.AccessToken = "" ∧ s.bot.UserId = "" ∧ s.bot.DeviceId = "" ∧
        s.bot.matrix.AccessToken = "" ∧ s.bot.matrix.UserID = "" ∧
        s.bot.matrix.DeviceID = "" ∧
        s.bot.Username = cfg.username ∧ s.bot.password = cfg.password) := by
  obtain ⟨ld, bot0, tk, hL, hB, hK, hs, hb, ht⟩ := mainSetup_ok cfg w s t h
  obtain ⟨_, base, hN, hb0⟩ := mainNewBot_ok cfg w ld bot0 _ hB
  obtain ⟨_, _, hbase⟩ := NewBot_ok w _ _ _ _ hN
  have hbot : s.bot = mainConfigure cfg bot0 s.pickleKey := hb
  rw [hb0, hbase] at hbot
  refine ⟨ld, tk, hL, hK, ht, hs, ?_, ?_, ?_, ?_, ?_, ?_, ?_⟩
  all_goals
    rw [hbot]
    unfold mainConfigure
    by_cases hr : cfg.recoveryKey = "" <;>
    by_cases h1 : ld.accessToken = "" <;>
    by_cases h2 : ld.deviceId = "" <;>
    by_cases h3 : ld.userId = "" <;>
    simp [hr, h1, h2, h3, Bot.EnableEncryption, Bot.EnableSessionVerification,
      Bot.SetAccessTokenCredentials, Bot.SetUsernamePassword]

/-- A run whose `Init` succeeded: trace, table and end. -/
theorem main_run_ok (cfg : Config) (w : World) (s : Setup) (t : List Event)
    (hS : mainSetup cfg w = (Except.ok s, t)) (hI : (s.bot.Init w).err = none) :
    (main cfg w).trace =
        t ++ (s.bot.Init w).events ++
          (if s.shouldStore = true then
            [Event.dbInsert (s.bot.Init w).bot.AccessToken (s.bot.Init w).bot.DeviceId
              (s.bot.Init w).bot.UserId s.pickleKey w.insertErr]
           else []) ∧
      (main cfg w).store =
        (if s.shouldStore = true ∧ w.insertErr = none then
          w.rows ++ [Row.ofValues (s.bot.Init w).bot.AccessToken (s.bot.Init w).bot.DeviceId
              (s.bot.Init w).bot.UserId s.pickleKey]
         else w.rows) ∧
      ((main cfg w).outcome = Boot.booted (s.bot.Init w).bot ↔
        (s.shouldStore = true → w.insertErr = none)) ∧
      (∀ bm, (main cfg w).outcome = Boot.booted bm → bm = (s.bot.Init w).bot) := by
  rw [main_of_init_ok cfg w s t hS hI]
  unfold mainPersist
  cases hs : s.shouldStore <;> cases hi : w.insertErr <;> simp

theorem main_booted (cfg : Config) (w : World) (bm : Bot)
    (h : (main cfg w).outcome = Boot.booted bm) :
    ∃ s t, mainSetup cfg w = (Except.ok s, t) ∧ (s.bot.Init w).err = none ∧
      bm = (s.bot.Init w).bot ∧ (s.shouldStore = true → w.insertErr = none) := by
  rcases main_cases cfg w with ⟨e, t, _, hm⟩ | ⟨s, t, e, _, _, hm⟩ | ⟨s, t, hS, hI, _⟩
  · rw [hm] at h; simp at h
  · rw [hm] at h; simp at h
  · obtain ⟨_, _, h3, h4⟩ := main_run_ok cfg w s t hS hI
    have hb := h4 bm h
    subst hb
    exact ⟨s, t, hS, hI, rfl, h3.mp h⟩

theorem Run_ok (b : Bot) (s : DefaultSyncer) (hs : b.syncer = some s) :
    ∃ b1 st0, b.Run = Except.ok (b1, st0) ∧ st0.onceDone = false ∧ st0.events = [] ∧
      st0.bot.recoveryKey = b.recoveryKey ∧ st0.panic = none := by
  unfold Bot.Run
  rw [hs]
  exact ⟨_, _, rfl, rfl, rfl, rfl, rfl⟩

theorem verifySession_count (w : World) (b : Bot) :
    verifyCount (b.verifySession w).events = 1 := by
  simp only [Bot.verifySession, verifyCount]
  iterate 6 (all_goals try split)
  all_goals simp [Event.isVerifySession]

theorem onSync_done (w : World) (st : RunState) (resp : RespSync) (since : String)
    (h : st.onceDone = true) : (onSync w st resp since).1 = st := by
  simp [onSync, h]

theorem onceBody_done (w : World) (st : RunState) :
    (onceBody w st).onceDone = st.onceDone := by
  simp only [onceBody]
  iterate 3 (all_goals try split)
  all_goals simp

theorem onceBody_count (w : World) (st : RunState) :
    verifyCount (onceBody w st).events =
      verifyCount st.events + (if st.bot.recoveryKey.isSome then 1 else 0) := by
  have hv := verifySession_count w st.bot
  simp only [onceBody]
  cases h : st.bot.recoveryKey with
  | none => simp
  | some k =>
    simp only [verifyCount] at hv ⊢
    split <;> simp_all [List.countP_append]

theorem deliver_done (w : World) (st : RunState) (rs : List (RespSync × String))
    (h : st.onceDone = true) : deliver w st rs = st := by
  induction rs with
  | nil => rfl
  | cons r rs ih =>
    obtain ⟨resp, since⟩ := r
    simp only [deliver, onSync_done w st resp since h]
    split
    · rfl
    · exact ih

/-- The first response runs the body of the once; every later one changes
nothing. -/
theorem deliver_cons (w : World) (st : RunState) (r : RespSync × String)
    (rs : List (RespSync × String)) (h : st.onceDone = false) :
    deliver w st (r :: rs) = onceBody w { st with onceDone := true } := by
  obtain ⟨resp, since⟩ := r
  have h1 : (onSync w st resp since).1 = onceBody w { st with onceDone := true } := by
    simp only [onSync, h]
    simp only [Bool.false_eq_true, if_false]
    split <;> rfl
  simp only [deliver, h1]
  split
  · rfl
  · exact deliver_done w _ rs (by rw [onceBody_done])

/-- C6.  One-time verification.  For every bot with a syncer and every
sequence of at least two sync responses handed one after the other to the
listener that `Run` registers: `verifySession` is entered exactly once when the
bot has a recovery key and never when it has none, and that one entry happens
while the first response is handled.  A recovery key is what
`EnableSessionVerification` sets, and the bot that `main` hands to `Run` has one
exactly when the configured recovery key is non-empty. -/
theorem verification_fires_once (w : World) (b : Bot) (s : DefaultSyncer)
    (resps : List (RespSync × String)) (hs : b.syncer = some s) (hN : 2 ≤ resps.length) :
    ∃ b1 st0, b.Run = Except.ok (b1, st0) ∧
      verifyCount (deliver w st0 resps).events = (if b.recoveryKey.isSome then 1 else 0) ∧
      verifyCount (deliver w st0 (resps.take 1)).events =
        (if b.recoveryKey.isSome then 1 else 0) ∧
      (∀ k, (b.EnableSessionVerification k).recoveryKey = some k) ∧
      (∀ cfg w0 bm, (main cfg w0).outcome = Boot.booted bm →
        bm.syncer ≠ none ∧
          bm.recoveryKey = (if cfg.recoveryKey = "" then none else some cfg.recoveryKey)) := by
  obtain ⟨b1, st0, hR, hd, he, hk, _⟩ := Run_ok b s hs
  refine ⟨b1, st0, hR, ?_, ?_, fun k => rfl, ?_⟩
  · cases resps with
    | nil => simp at hN
    | cons r rs =>
      rw [deliver_cons w st0 r rs hd, onceBody_count]
      simp [he, hk, verifyCount]
  · cases resps with
    | nil => simp at hN
    | cons r rs =>
      rw [List.take_succ_cons, List.take_zero, deliver_cons w st0 r [] hd, onceBody_count]
      simp [he, hk, verifyCount]
  · intro cfg w0 bm hb
    obtain ⟨s0, t, hS, hI, hbm, _⟩ := main_booted cfg w0 bm hb
    obtain ⟨_, _, _, _, _, h6, h7, _⟩ := Init_ok w0 s0.bot hI
    obtain ⟨ld, tk, _, _, _, _, hrk, _⟩ := setup_bot cfg w0 s0 t hS
    rw [hbm, h6, h7, hrk]
    simp

/-- The trace of a run that reached `Init`: the calls before `Init`, the calls
of `Init`, and at most one INSERT, made only when `shouldStore` holds and `Init`
returned nil. -/
theorem main_trace_of_setup (cfg : Config) (w : World) (s : Setup) (t : List Event)
    (hS : mainSetup cfg w = (Except.ok s, t)) :
    ∃ ins, (main cfg w).trace = t ++ (s.bot.Init w).events ++ ins ∧
      ((ins = [] ∧ (main cfg w).store = w.rows) ∨
       (s.shouldStore = true ∧ (s.bot.Init w).err = none ∧
        ins = [Event.dbInsert (s.bot.Init w).bot.AccessToken (s.bot.Init w).bot.DeviceId
                (s.bot.Init w).bot.UserId s.pickleKey w.insertErr] ∧
        (main cfg w).store =
          (if w.insertErr = none then
            w.rows ++ [Row.ofValues (s.bot.Init w).bot.AccessToken (s.bot.Init w).bot.DeviceId
              (s.bot.Init w).bot.UserId s.pickleKey]
           else w.rows))) := by
  cases hI : (s.bot.Init w).err with
  | some e =>
    rw [main_of_init_err cfg w s t e hS hI]
    exact ⟨[], by simp, Or.inl ⟨rfl, rfl⟩⟩
  | none =>
    obtain ⟨h1, h2, _⟩ := main_run_ok cfg w s t hS hI
    cases hs : s.shouldStore with
    | false =>
      exact ⟨[], by simp [h1, hs], Or.inl ⟨rfl, by simp [h2, hs]⟩⟩
    | true =>
      exact ⟨_, by rw [h1, if_pos hs], Or.inr ⟨rfl, rfl, rfl, by simp [h2, hs]⟩⟩

theorem setup_snd (cfg : Config) (w : World) (r : Except String Setup) (t : List Event)
    (hS : mainSetup cfg w = (r, t)) : (mainSetup cfg w).2 = t := by
  rw [hS]

/-- Every login call of a run is the login call of the login step of `Init`. -/
theorem main_filter_login (cfg : Config) (w : World) (s : Setup) (t : List Event)
    (hS : mainSetup cfg w = (Except.ok s, t)) :
    (main cfg w).trace.filter Event.isLogin = (s.bot.loginStep w).events := by
  obtain ⟨ins, ht, hins⟩ := main_trace_of_setup cfg w s t hS
  have h1 : t.filter Event.isLogin = [] :=
    List.filter_eq_nil_iff.mpr (fun ev hev => by
      have := mainSetup_events_kind cfg w ev (by rw [setup_snd cfg w _ t hS]; exact hev)
      simp [this.1])
  have h2 : ins.filter Event.isLogin = [] := by
    rcases hins with ⟨h, _⟩ | ⟨_, _, h, _⟩ <;> rw [h] <;> simp [Event.isLogin]
  rw [ht, List.filter_append, List.filter_append, h1, h2, Init_filter_login]
  simp

/-- Every INSERT of a run is the single one of the persist step. -/
theorem main_insert (cfg : Config) (w : World) (ev : Event)
    (hev : ev ∈ (main cfg w).trace) (hi : ev.isInsert = true) :
    ∃ s t, mainSetup cfg w = (Except.ok s, t) ∧ s.shouldStore = true ∧
      (s.bot.Init w).err = none ∧
      (main cfg w).trace = t ++ (s.bot.Init w).events ++ [ev] ∧
      ev = Event.dbInsert (s.bot.Init w).bot.AccessToken (s.bot.Init w).bot.DeviceId
              (s.bot.Init w).bot.UserId s.pickleKey w.insertErr := by
  rcases hS : mainSetup cfg w with ⟨rS, t⟩
  cases rS with
  | error e =>
    rw [main_of_setup_err cfg w e t hS] at hev
    have := mainSetup_events_kind cfg w ev (by rw [setup_snd cfg w _ t hS]; exact hev)
    rw [this.2.1] at hi
    simp at hi
  | ok s =>
    obtain ⟨ins, ht, hins⟩ := main_trace_of_setup cfg w s t hS
    rw [ht] at hev
    have hnot : ¬ ev ∈ t ++ (s.bot.Init w).events := by
      intro hm
      rcases List.mem_append.mp hm with h | h
      · have := mainSetup_events_kind cfg w ev (by rw [setup_snd cfg w _ t hS]; exact h)
        rw [this.2.1] at hi
        simp at hi
      · rw [Init_no_insert w s.bot ev h] at hi
        simp at hi
    rcases List.mem_append.mp hev with h | h
    · exact absurd h hnot
    · rcases hins with ⟨h0, _⟩ | ⟨h1, h2, h3, _⟩
      · rw [h0] at h; simp at h
      · rw [h3] at h
        simp at h
        refine ⟨s, t, rfl, h1, h2, ?_, h⟩
        rw [ht, h3, h]

/-- What the load step yields for a readable first row. -/
theorem mainLoad_row (w : World) (ld : Loaded) (t : List Event) (r : Row) (rest : List Row)
    (a d u : String) (hL : mainLoad w = (Except.ok ld, t)) (hrows : w.rows = r :: rest)
    (ha : r.accessToken = some a) (hd : r.deviceId = some d) (hu : r.userId = some u) :
    ld.accessToken = a ∧ ld.deviceId = d ∧ ld.userId = u ∧ ld.pickleKey = r.pickleKey ∧
      ld.shouldStore = false := by
  obtain ⟨_, _, h⟩ := mainLoad_ok w ld t hL
  rcases h with ⟨h0, _⟩ | ⟨r2, rest2, h0, h1, h2, h3, h4, h5⟩
  · rw [hrows] at h0; simp at h0
  · rw [hrows] at h0
    simp at h0
    obtain ⟨h0, _⟩ := h0
    subst h0
    rw [ha] at h1; rw [hd] at h2; rw [hu] at h3
    simp at h1 h2 h3
    exact ⟨h1.symm, h2.symm, h3.symm, h4, h5⟩

/-- A stored identity that is read: no login, no write.  For every run of
`main` whose query yields a record with non-empty access token, user id and
device id, whatever username and password are configured and however the
collaborators answer: no call of the run is a password login, no call is an
INSERT, and the table is left as it was. -/
theorem stored_identity_skips_login (cfg : Config) (w : World) (r : Row) (rest : List Row)
    (a u d : String) (hrows : w.rows = r :: rest)
    (ha : r.accessToken = some a) (hu : r.userId = some u) (hd : r.deviceId = some d)
    (ha0 : a ≠ "") (hu0 : u ≠ "") (hd0 : d ≠ "") :
    (∀ ev ∈ (main cfg w).trace, ev.isLogin = false ∧ ev.isInsert = false) ∧
      (main cfg w).store = w.rows := by
  rcases hS : mainSetup cfg w with ⟨rS, t⟩
  cases rS with
  | error e =>
    rw [main_of_setup_err cfg w e t hS]
    refine ⟨fun ev hev => ?_, rfl⟩
    have := mainSetup_events_kind cfg w ev (by rw [setup_snd cfg w _ t hS]; exact hev)
    exact ⟨this.1, this.2.1⟩
  | ok s =>
    obtain ⟨ld, tk, hL, _, _, hss, _, _, _, _, _, hc, _⟩ := setup_bot cfg w s t hS
    obtain ⟨e1, e2, e3, _, e5⟩ := mainLoad_row w ld _ r rest a d u hL hrows ha hd hu
    have hstore : s.shouldStore = false := by rw [hss, e5]
    obtain ⟨_, _, _, _, _, _, hun, _⟩ := hc ⟨by rw [e1]; exact ha0, by rw [e2]; exact hd0,
      by rw [e3]; exact hu0⟩
    have hlog : (main cfg w).trace.filter Event.isLogin = [] := by
      rw [main_filter_login cfg w s t hS]
      rcases loginStep_events w s.bot with ⟨_, h, _⟩ | ⟨hw, _⟩ | ⟨hw, _⟩
      · exact h
      · simp [Bot.wantsLogin, hun] at hw
      · simp [Bot.wantsLogin, hun] at hw
    have hins : ∀ ev ∈ (main cfg w).trace, ev.isInsert = false := by
      intro ev hev
      by_contra hne
      obtain ⟨s2, t2, hS2, hst, _⟩ := main_insert cfg w ev hev (by simpa using hne)
      rw [hS] at hS2
      simp at hS2
      rw [← hS2.1, hstore] at hst
      simp at hst
    refine ⟨fun ev hev => ⟨?_, hins ev hev⟩, ?_⟩
    · have := List.filter_eq_nil_iff.mp hlog ev hev
      simpa using this
    · obtain ⟨ins, _, h⟩ := main_trace_of_setup cfg w s t hS
      rcases h with ⟨_, h⟩ | ⟨h, _⟩
      · exact h
      · rw [hstore] at h; simp at h

/-- C5.  An incomplete stored identity falls through to login.  For every
run of `main` whose query yields a record in which the access token, the user
id or the device id is empty, with a non-empty configured username and
password, and that reaches the call of `Init`: the bot handed to `Init` and its
client carry an empty access token, user id and device id (nothing of the
stored record), they carry the configured username and password, and the run
makes exactly one login call, a password login with the configured username
and password. -/
theorem incomplete_identity_logs_in (cfg : Config) (w : World) (r : Row) (rest : List Row)
    (a u d : String) (s : Setup) (t : List Event) (hrows : w.rows = r :: rest)
    (ha : r.accessToken = some a) (hu : r.userId = some u) (hd : r.deviceId = some d)
    (hpart : a = "" ∨ u = "" ∨ d = "")
    (huser : cfg.username ≠ "") (hpass : cfg.password ≠ "")
    (hS : mainSetup cfg w = (Except.ok s, t)) :
    s.bot.AccessToken = "" ∧ s.bot.UserId = "" ∧ s.bot.DeviceId = "" ∧
      s.bot.matrix.AccessToken = "" ∧ s.bot.matrix.UserID = "" ∧ s.bot.matrix.DeviceID = "" ∧
      s.bot.Username = cfg.username ∧ s.bot.password = cfg.password ∧
      ∃ resp err,
        (main cfg w).trace.filter Event.isLogin =
          [Event.login
            { type := AuthType.password
              identifier := { type := IdentifierType.user, user := cfg.username }
              password := cfg.password, storeCredentials := true, storeHomeserverURL := true }
            resp err] := by
  obtain ⟨ld, tk, hL, _, _, hss, _, _, _, _, _, _, hc⟩ := setup_bot cfg w s t hS
  obtain ⟨e1, e2, e3, _, e5⟩ := mainLoad_row w ld _ r rest a d u hL hrows ha hd hu
  have hnc : ¬ (ld.accessToken ≠ "" ∧ ld.deviceId ≠ "" ∧ ld.userId ≠ "") := by
    rw [e1, e2, e3]
    rcases hpart with h | h | h <;> simp [h]
  obtain ⟨b1, b2, b3, b4, b5, b6, b7, b8⟩ := hc hnc
  refine ⟨b1, b2, b3, b4, b5, b6, b7, b8, ?_⟩
  rw [main_filter_login cfg w s t hS]
  have hreq : s.bot.loginRequest =
      { type := AuthType.password
        identifier := { type := IdentifierType.user, user := cfg.username }
        password := cfg.password, storeCredentials := true, storeHomeserverURL := true } := by
    simp [Bot.loginRequest, b7, b8]
  rcases loginStep_events w s.bot with ⟨hw, _⟩ | ⟨_, e, _, h, _⟩ | ⟨_, resp, _, h, _⟩
  · simp [Bot.wantsLogin, Bot.identityIncomplete, b7, b8, b1, huser, hpass] at hw
  · exact ⟨none, some e, by rw [h, hreq]⟩
  · exact ⟨some resp, none, by rw [h, hreq]⟩

/-- C7.  `Init` checks the identity.  For every bot and every world: `Init`
makes a login call exactly when the username and the password are non-empty
and the access token, the user id or the device id is empty; when the login
step is over without error and one of the three is still empty, `Init` returns
the error about the missing credentials, has made no call besides those of
the login step (no encryption call, no display name call) and leaves the
crypto helper as it was; and whenever `Init` returns nil the access token, the
user id and the device id of the bot are all non-empty. -/
theorem init_checks_identity (w : World) (b : Bot) :
    ((b.Init w).events.filter Event.isLogin ≠ [] ↔
        (b.Username ≠ "" ∧ b.password ≠ "" ∧
          (b.AccessToken = "" ∨ b.UserId = "" ∨ b.DeviceId = ""))) ∧
      ((b.loginStep w).err = none →
        ((b.loginStep w).bot.AccessToken = "" ∨ (b.loginStep w).bot.UserId = "" ∨
          (b.loginStep w).bot.DeviceId = "") →
        (b.Init w).err =
            some "either username and password or access token and user id and device id must be set" ∧
          (b.Init w).events = (b.loginStep w).events ∧
          (∀ ev ∈ (b.Init w).events, ev.isEncryption = false ∧ ev.isSetDisplayName = false) ∧
          (b.Init w).bot.cryptoHelper = b.cryptoHelper ∧
          (b.Init w).bot.matrix.Crypto = (b.loginStep w).bot.matrix.Crypto) ∧
      ((b.Init w).err = none →
        (b.Init w).bot.AccessToken ≠ "" ∧ (b.Init w).bot.UserId ≠ "" ∧
          (b.Init w).bot.DeviceId ≠ "") := by
  refine ⟨?_, ?_, ?_⟩
  · rw [Init_filter_login, ← wantsLogin_iff]
    rcases loginStep_events w b with ⟨hw, h, _⟩ | ⟨hw, e, _, h, _⟩ | ⟨hw, r, _, h, _⟩ <;>
      simp [hw, h]
  · intro h1 h2
    have hinc := (identityIncomplete_iff _).mpr h2
    rcases Init_spec w b with ⟨e, he, _⟩ | ⟨_, _, hI⟩ | ⟨_, hc, _⟩
    · rw [h1] at he; simp at he
    · rw [hI]
      refine ⟨rfl, rfl, ?_, (loginStep_frame w b).2.2.2.2.1, rfl⟩
      intro ev hev
      have := loginStep_events_kind w b ev hev
      cases ev <;> simp_all [Event.isLogin, Event.isEncryption, Event.isSetDisplayName]
    · rw [hinc] at hc; simp at hc
  · intro h
    obtain ⟨_, h2, h3, h4, h5, _⟩ := Init_ok w b h
    rw [h3, h4, h5]
    exact (identityIncomplete_false_iff _).mp h2

theorem setup_filter_nil (cfg : Config) (w : World) (r : Except String Setup) (t : List Event)
    (hS : mainSetup cfg w = (r, t)) :
    t.filter Event.isLogin = [] ∧ t.filter Event.isInsert = [] ∧
      t.filter Event.isEncryption = [] := by
  refine ⟨?_, ?_, ?_⟩ <;>
    refine List.filter_eq_nil_iff.mpr (fun ev hev => ?_) <;>
    have := mainSetup_events_kind cfg w ev (by rw [setup_snd cfg w _ t hS]; exact hev)
  · simp [this.1]
  · simp [this.2.1]
  · simp [this.2.2.1]

theorem login_kind_exclusive (ev : Event) (h : ev.isLogin = true) :
    ev.isEncryption = false ∧ ev.isInsert = false ∧ ev.isSetDisplayName = false := by
  cases ev <;> simp [Event.isLogin] at h
  simp [Event.isEncryption, Event.isInsert, Event.isSetDisplayName]

theorem shouldStore_iff (cfg : Config) (w : World) (s : Setup) (t : List Event)
    (hS : mainSetup cfg w = (Except.ok s, t)) : s.shouldStore = true ↔ w.rows = [] := by
  obtain ⟨ld, tk, hL, _, _, hss, _⟩ := setup_bot cfg w s t hS
  obtain ⟨_, _, h⟩ := mainLoad_ok w ld _ hL
  rcases h with ⟨h0, h1⟩ | ⟨r, rest, h0, _, _, _, _, h5⟩
  · simp [hss, h1, h0]
  · simp [hss, h5, h0]

/-- The encryption and INSERT calls of a run whose `Init` succeeded. -/
theorem main_filters_ok (cfg : Config) (w : World) (s : Setup) (t : List Event)
    (hS : mainSetup cfg w = (Except.ok s, t)) (hI : (s.bot.Init w).err = none) :
    (main cfg w).trace.filter Event.isEncryption =
        [Event.newCryptoHelper s.pickleKey "matrix_bot.db" none, Event.cryptoInit none] ∧
      (main cfg w).trace.filter Event.isInsert =
        (if s.shouldStore = true then
          [Event.dbInsert (s.bot.Init w).bot.AccessToken (s.bot.Init w).bot.DeviceId
            (s.bot.Init w).bot.UserId s.pickleKey w.insertErr]
         else []) ∧
      (s.bot.Init w).bot.cryptoHelper =
        some { pickleKey := s.pickleKey, dbPath := "matrix_bot.db", initialised := true } := by
  obtain ⟨ht, _⟩ := main_run_ok cfg w s t hS hI
  obtain ⟨_, _, _, _, _, _, _, hch, hev⟩ := Init_ok w s.bot hI
  obtain ⟨_, _, _, _, _, _, _, hk, hdb, _⟩ := setup_bot cfg w s t hS
  obtain ⟨f1, f2, f3⟩ := setup_filter_nil cfg w _ t hS
  have hl := loginStep_events_kind w s.bot
  have hl1 : (s.bot.loginStep w).events.filter Event.isEncryption = [] :=
    List.filter_eq_nil_iff.mpr (fun ev hev => by
      simp [(login_kind_exclusive ev (hl ev hev)).1])
  have hl2 : (s.bot.loginStep w).events.filter Event.isInsert = [] :=
    List.filter_eq_nil_iff.mpr (fun ev hev => by
      simp [(login_kind_exclusive ev (hl ev hev)).2.1])
  rw [hk, hdb] at hev hch
  simp only at hev hch
  refine ⟨?_, ?_, hch⟩
  · rw [ht, hev]
    simp only [List.filter_append, f3, hl1]
    cases s.shouldStore <;> simp [Event.isEncryption]
  · rw [ht, hev]
    simp only [List.filter_append, f2, hl2]
    cases s.shouldStore <;> simp [Event.isInsert]

/-- C10.  Encryption is never skipped.  For every run of `main` that reaches
`Init` and whose `Init` returns nil: the encryption calls of the run are exactly
the successful construction of the crypto helper followed by its successful
`Init`, the bot holds the initialised helper, and the key handed over is the
stored key when the first row carries one, and otherwise (no row, or a row
whose key is NULL) the 32 bytes read from the entropy source in this run. -/
theorem encryption_always_initialised (cfg : Config) (w : World) (s : Setup) (t : List Event)
    (hS : mainSetup cfg w = (Except.ok s, t)) (hI : (s.bot.Init w).err = none) :
    (main cfg w).trace.filter Event.isEncryption =
        [Event.newCryptoHelper s.pickleKey "matrix_bot.db" none, Event.cryptoInit none] ∧
      (s.bot.Init w).bot.cryptoHelper =
        some { pickleKey := s.pickleKey, dbPath := "matrix_bot.db", initialised := true } ∧
      (∀ r rest k, w.rows = r :: rest → r.pickleKey = some k → s.pickleKey = k) ∧
      ((w.rows = [] ∨ ∃ r rest, w.rows = r :: rest ∧ r.pickleKey = none) →
        s.pickleKey = (List.range 32).map w.entropy ∧ s.pickleKey.length = 32 ∧
          Event.randRead 32 none ∈ (main cfg w).trace) := by
  obtain ⟨h1, _, h3⟩ := main_filters_ok cfg w s t hS hI
  obtain ⟨ht, _⟩ := main_run_ok cfg w s t hS hI
  obtain ⟨ld, tk, hL, hK, htk, _⟩ := setup_bot cfg w s t hS
  obtain ⟨_, _, hld⟩ := mainLoad_ok w ld _ hL
  refine ⟨h1, h3, ?_, ?_⟩
  · intro r rest k hrows hk
    rcases hld with ⟨h0, _⟩ | ⟨r2, rest2, h0, _, _, _, h4, _⟩
    · rw [hrows] at h0; simp at h0
    · rw [hrows] at h0
      simp at h0
      rw [← h0.1, hk] at h4
      rw [h4] at hK
      rcases mainPickleKey_ok w _ _ _ hK with ⟨h, _⟩ | ⟨h, _⟩
      · simpa using h.symm
      · simp at h
  · intro hno
    have hnone : ld.pickleKey = none := by
      rcases hld with ⟨_, h1⟩ | ⟨r2, rest2, h0, _, _, _, h4, _⟩
      · rw [h1]
      · rcases hno with h | ⟨r, rest, h, hk⟩
        · rw [h] at h0; simp at h0
        · rw [h] at h0
          simp at h0
          rw [h4, ← h0.1, hk]
    rw [hnone] at hK
    rcases mainPickleKey_ok w _ _ _ hK with ⟨h, _⟩ | ⟨_, _, hkey, htk2⟩
    · simp at h
    · refine ⟨hkey, by rw [hkey]; simp, ?_⟩
      rw [ht, htk, htk2]
      simp

/-- A run in which the display name call succeeded is a run whose `Init`
returned nil. -/
theorem main_display_ok (cfg : Config) (w : World) (name : String)
    (h : Event.setDisplayName name none ∈ (main cfg w).trace) :
    ∃ s t, mainSetup cfg w = (Except.ok s, t) ∧ (s.bot.Init w).err = none := by
  rcases hS : mainSetup cfg w with ⟨rS, t⟩
  cases rS with
  | error e =>
    rw [main_of_setup_err cfg w e t hS] at h
    have := mainSetup_events_kind cfg w _ (by rw [setup_snd cfg w _ t hS]; exact h)
    simp [Event.isSetDisplayName] at this
  | ok s =>
    refine ⟨s, t, rfl, ?_⟩
    obtain ⟨ins, ht, hins⟩ := main_trace_of_setup cfg w s t hS
    rcases hins with ⟨h0, _⟩ | ⟨_, h2, _⟩
    · rw [ht, h0, List.append_nil] at h
      rcases List.mem_append.mp h with h | h
      · have := mainSetup_events_kind cfg w _ (by rw [setup_snd cfg w _ t hS]; exact h)
        simp [Event.isSetDisplayName] at this
      · obtain ⟨rest, hr, _, hd, _⟩ := Init_events_shape w s.bot
        rw [hr] at h
        rcases List.mem_append.mp h with h | h
        · have := loginStep_events_kind w s.bot _ h
          simp [Event.isLogin] at this
        · exact hd name h
    · exact h2

/-- A run that starts from an empty table and whose `Init` returns nil has
logged in. -/
theorem first_run_identity (cfg : Config) (w : World) (s : Setup) (t : List Event)
    (hS : mainSetup cfg w = (Except.ok s, t)) (hI : (s.bot.Init w).err = none)
    (hrows : w.rows = []) :
    s.shouldStore = true ∧ s.pickleKey = (List.range 32).map w.entropy ∧
      t = [Event.dbQuery none, Event.newClient cfg.homeserver none, Event.randRead 32 none] ∧
      cfg.username ≠ "" ∧ cfg.password ≠ "" ∧
      ∃ resp,
        (main cfg w).trace.filter Event.isLogin =
          [Event.login
            { type := AuthType.password
              identifier := { type := IdentifierType.user, user := cfg.username }
              password := cfg.password, storeCredentials := true, storeHomeserverURL := true }
            (some resp) none] ∧
        (s.bot.Init w).bot.AccessToken = resp.AccessToken ∧
        (s.bot.Init w).bot.UserId = resp.UserID ∧
        (s.bot.Init w).bot.DeviceId = resp.DeviceID ∧
        resp.AccessToken ≠ "" ∧ resp.UserID ≠ "" ∧ resp.DeviceID ≠ "" := by
  obtain ⟨ld, tk, hL, hK, htk, hss, _, _, _, _, _, _, hc⟩ := setup_bot cfg w s t hS
  obtain ⟨_, _, hld⟩ := mainLoad_ok w ld _ hL
  rcases hld with ⟨_, hld⟩ | ⟨r, rest, h0, _⟩
  swap
  · rw [hrows] at h0; simp at h0
  subst hld
  obtain ⟨b1, b2, b3, _, _, _, b7, b8⟩ := hc (by simp)
  obtain ⟨i1, i2, i3, i4, i5, _⟩ := Init_ok w s.bot hI
  have hreq : s.bot.loginRequest =
      { type := AuthType.password
        identifier := { type := IdentifierType.user, user := cfg.username }
        password := cfg.password, storeCredentials := true, storeHomeserverURL := true } := by
    simp [Bot.loginRequest, b7, b8]
  have hkey := mainPickleKey_ok w _ _ _ hK
  simp only at hkey
  rcases hkey with ⟨h, _⟩ | ⟨_, _, hkey, htk2⟩
  · simp at h
  refine ⟨by simpa using hss, hkey, by rw [htk, htk2]; rfl, ?_⟩
  rcases loginStep_events w s.bot with ⟨_, _, hb, _⟩ | ⟨_, e, _, _, he⟩ | ⟨hw, resp, _, h, _, r1, r2, r3⟩
  · rw [hb] at i2
    simp [Bot.identityIncomplete, b1] at i2
  · rw [he] at i1; simp at i1
  · have hw2 := (wantsLogin_iff _).mp hw
    rw [b7, b8] at hw2
    refine ⟨hw2.1, hw2.2.1, resp, ?_, by rw [i3, r1], by rw [i4, r2], by rw [i5, r3], ?_⟩
    · rw [main_filter_login cfg w s t hS, h, hreq]
    · have := (identityIncomplete_false_iff _).mp i2
      rw [r1, r2, r3] at this
      exact this

/-- C1.  First run: login, fresh key, one record.  For every run of `main` in
which the query yields no row, as it does when the table holds no row, the
configured username and password are
non-empty, the login call of the run succeeds with a non-empty access token,
user id and device id, and the construction of the crypto helper, its `Init`
and the display name call succeed: the run makes exactly one login call, a
password login for the configured username and password; the key handed to
the crypto helper is the one read from the entropy source in this run and has
exactly 32 bytes; the run issues exactly one INSERT, whose values are the
access token, device id and user id of that login answer and that same key;
and when the database accepts the INSERT the table, as far as the query
reads it, holds exactly that record. -/
theorem first_run_logs_in_and_persists (cfg : Config) (w : World) (req : ReqLogin)
    (resp : RespLogin) (encKey : Bytes) (encPath name : String)
    (hrows : w.rows = [])
    (huser : cfg.username ≠ "") (hpass : cfg.password ≠ "")
    (hlogin : Event.login req (some resp) none ∈ (main cfg w).trace)
    (htok : resp.AccessToken ≠ "") (huid : resp.UserID ≠ "") (hdev : resp.DeviceID ≠ "")
    (henc1 : Event.newCryptoHelper encKey encPath none ∈ (main cfg w).trace)
    (henc2 : Event.cryptoInit none ∈ (main cfg w).trace)
    (hname : Event.setDisplayName name none ∈ (main cfg w).trace) :
    (main cfg w).trace.filter Event.isLogin =
        [Event.login
          { type := AuthType.password
            identifier := { type := IdentifierType.user, user := cfg.username }
            password := cfg.password, storeCredentials := true, storeHomeserverURL := true }
          (some resp) none] ∧
      Event.randRead 32 none ∈ (main cfg w).trace ∧
      encKey = (List.range 32).map w.entropy ∧
      encKey.length = 32 ∧
      (main cfg w).trace.filter Event.isEncryption =
        [Event.newCryptoHelper encKey "matrix_bot.db" none, Event.cryptoInit none] ∧
      (main cfg w).trace.filter Event.isInsert =
        [Event.dbInsert resp.AccessToken resp.DeviceID resp.UserID encKey w.insertErr] ∧
      (main cfg w).store =
        (if w.insertErr = none then
          [Row.ofValues resp.AccessToken resp.DeviceID resp.UserID encKey]
         else []) := by
  obtain ⟨s, t, hS, hI⟩ := main_display_ok cfg w name hname
  obtain ⟨hss, hkey, ht, _, _, resp2, hl, a1, a2, a3, _⟩ := first_run_identity cfg w s t hS hI hrows
  obtain ⟨f1, f2, _⟩ := main_filters_ok cfg w s t hS hI
  obtain ⟨htr, hst, _⟩ := main_run_ok cfg w s t hS hI
  have hr : resp2 = resp := by
    have : Event.login req (some resp) none ∈ (main cfg w).trace.filter Event.isLogin :=
      List.mem_filter.mpr ⟨hlogin, rfl⟩
    rw [hl] at this
    simp at this
    exact this.2.symm
  subst hr
  have hk : encKey = s.pickleKey := by
    have : Event.newCryptoHelper encKey encPath none ∈
        (main cfg w).trace.filter Event.isEncryption :=
      List.mem_filter.mpr ⟨henc1, rfl⟩
    rw [f1] at this
    simp at this
    exact this.1
  subst hk
  refine ⟨hl, ?_, hkey, by rw [hkey]; simp, f1, ?_, ?_⟩
  · rw [htr, ht]; simp
  · rw [f2, if_pos hss, a1, a2, a3]
  · rw [hst, hrows, a1, a2, a3]
    simp [hss]

/-- An element with a property that no element of the front part has sits
right behind the front part. -/
theorem split_at_last (p : Event → Bool) (l pre post : List Event) (x y : Event)
    (hl : ∀ e ∈ l, p e = false) (hy : p y = true) (h : l ++ [x] = pre ++ y :: post) :
    pre = l ∧ post = [] ∧ y = x := by
  induction l generalizing pre with
  | nil =>
    cases pre with
    | nil => simp at h; exact ⟨rfl, by simp [h], by simp [h]⟩
    | cons a pre => simp at h
  | cons a l ih =>
    cases pre with
    | nil =>
      simp at h
      have := hl a (by simp)
      rw [h.1, hy] at this
      simp at this
    | cons b pre =>
      simp at h
      obtain ⟨hp, hq, hr⟩ := ih pre (fun e he => hl e (by simp [he])) h.2
      exact ⟨by rw [h.1, hp], hq, hr⟩

theorem insert_kind_exclusive (ev : Event) (h : ev.isInsert = true) :
    ev.isEncryption = false := by
  cases ev <;> simp [Event.isInsert] at h
  simp [Event.isEncryption]

/-- C3.  Persist only after encryption.  In every run of `main`, an INSERT
is the last call of the run and everything before it is the calls made
before `Init` followed by the calls of an `Init` that returned nil, among them
the successful construction of the crypto helper and its successful `Init`.
And when the construction of the crypto helper or its `Init` fails in a run,
the table is left exactly as it was, the run issues no INSERT, and it ends in
a panic with that error. -/
theorem persist_only_after_encryption (cfg : Config) (w : World) :
    (∀ pre ev post, (main cfg w).trace = pre ++ ev :: post → ev.isInsert = true →
        ∃ s t, mainSetup cfg w = (Except.ok s, t) ∧ (s.bot.Init w).err = none ∧
          pre = t ++ (s.bot.Init w).events ∧ post = [] ∧
          Event.newCryptoHelper s.pickleKey "matrix_bot.db" none ∈ pre ∧
          Event.cryptoInit none ∈ pre) ∧
      (∀ k p e,
        (Event.newCryptoHelper k p (some e) ∈ (main cfg w).trace ∨
          Event.cryptoInit (some e) ∈ (main cfg w).trace) →
        (main cfg w).store = w.rows ∧ (main cfg w).trace.filter Event.isInsert = [] ∧
          (main cfg w).outcome = Boot.panicked e) := by
  refine ⟨?_, ?_⟩
  · intro pre ev post htr hev
    have hmem : ev ∈ (main cfg w).trace := by rw [htr]; simp
    obtain ⟨s, t, hS, _, hI, ht, _⟩ := main_insert cfg w ev hmem hev
    have hno : ∀ e ∈ t ++ (s.bot.Init w).events, e.isInsert = false := by
      intro e he
      rcases List.mem_append.mp he with h | h
      · exact (mainSetup_events_kind cfg w e (by rw [setup_snd cfg w _ t hS]; exact h)).2.1
      · exact Init_no_insert w s.bot e h
    rw [ht] at htr
    obtain ⟨hp, hq, _⟩ := split_at_last Event.isInsert _ pre post ev ev hno hev htr
    obtain ⟨f1, _⟩ := main_filters_ok cfg w s t hS hI
    have hsub : ∀ e, e ∈ (main cfg w).trace.filter Event.isEncryption → e ∈ pre := by
      intro e he
      obtain ⟨h1, h2⟩ := List.mem_filter.mp he
      rw [ht] at h1
      rcases List.mem_append.mp h1 with h | h
      · rw [hp]; exact h
      · simp at h
        rw [h, insert_kind_exclusive ev hev] at h2
        simp at h2
    refine ⟨s, t, hS, hI, hp, hq, hsub _ (by rw [f1]; simp), hsub _ (by rw [f1]; simp)⟩
  · intro k p e hfail
    rcases hS : mainSetup cfg w with ⟨rS, t⟩
    cases rS with
    | error e2 =>
      rw [main_of_setup_err cfg w e2 t hS] at hfail
      rcases hfail with h | h <;>
        have := mainSetup_events_kind cfg w _ (by rw [setup_snd cfg w _ t hS]; exact h) <;>
        simp [Event.isEncryption] at this
    | ok s =>
      obtain ⟨ins, ht, hins⟩ := main_trace_of_setup cfg w s t hS
      obtain ⟨rest, hr, _, _, hd1, hd2⟩ := Init_events_shape w s.bot
      have herr : (s.bot.Init w).err = some e := by
        rcases hfail with h | h <;>
          rw [ht] at h <;>
          rcases List.mem_append.mp h with h | h
        · rcases List.mem_append.mp h with h | h
          · have := mainSetup_events_kind cfg w _ (by rw [setup_snd cfg w _ t hS]; exact h)
            simp [Event.isEncryption] at this
          · rw [hr] at h
            rcases List.mem_append.mp h with h | h
            · have := loginStep_events_kind w s.bot _ h
              simp [Event.isLogin] at this
            · exact hd1 k p e h
        · rcases hins with ⟨h0, _⟩ | ⟨_, _, h3, _⟩
          · rw [h0] at h; simp at h
          · rw [h3] at h; simp at h
        · rcases List.mem_append.mp h with h | h
          · have := mainSetup_events_kind cfg w _ (by rw [setup_snd cfg w _ t hS]; exact h)
            simp [Event.isEncryption] at this
          · rw [hr] at h
            rcases List.mem_append.mp h with h | h
            · have := loginStep_events_kind w s.bot _ h
              simp [Event.isLogin] at this
            · exact hd2 e h
        · rcases hins with ⟨h0, _⟩ | ⟨_, _, h3, _⟩
          · rw [h0] at h; simp at h
          · rw [h3] at h; simp at h
      rw [main_of_init_err cfg w s t e hS herr]
      refine ⟨rfl, ?_, rfl⟩
      obtain ⟨_, f2, _⟩ := setup_filter_nil cfg w _ t hS
      simp only [List.filter_append, f2, List.nil_append]
      exact List.filter_eq_nil_iff.mpr (fun ev hev => by simp [Init_no_insert w s.bot ev hev])

/-- C4, as amended.  The persist decision follows the presence of a row.
For every run of `main` that completes the bootstrap: when the query yielded
no row, the run issues exactly one INSERT, accepted by the database, that
carries the access token, device id and user id of the resulting session, and
the table, as far as the query reads it, then holds exactly that record; when
the query yielded a row,
whether its identity is complete or not and whether or not the run logged in,
the run issues no INSERT and the table is left as it was. -/
theorem persist_exactly_when_no_row (cfg : Config) (w : World) (bm : Bot)
    (h : (main cfg w).outcome = Boot.booted bm) :
    (w.rows = [] →
        ∃ key, (main cfg w).trace.filter Event.isInsert =
            [Event.dbInsert bm.AccessToken bm.DeviceId bm.UserId key none] ∧
          (main cfg w).store = [Row.ofValues bm.AccessToken bm.DeviceId bm.UserId key]) ∧
      (w.rows ≠ [] →
        (main cfg w).trace.filter Event.isInsert = [] ∧ (main cfg w).store = w.rows) := by
  obtain ⟨s, t, hS, hI, hbm, hins⟩ := main_booted cfg w bm h
  obtain ⟨_, f2, _⟩ := main_filters_ok cfg w s t hS hI
  obtain ⟨_, hst, _⟩ := main_run_ok cfg w s t hS hI
  have hiff := shouldStore_iff cfg w s t hS
  subst hbm
  refine ⟨fun hrows => ?_, fun hrows => ?_⟩
  · have hss := hiff.mpr hrows
    have hi := hins hss
    exact ⟨s.pickleKey, by rw [f2, if_pos hss, hi], by rw [hst, hrows]; simp [hss, hi]⟩
  · have hss : ¬ s.shouldStore = true := fun hc => hrows (hiff.mp hc)
    exact ⟨by rw [f2, if_neg hss], by rw [hst]; simp [hss]⟩

/-- A bot that resumes a complete identity reaches the construction of the
crypto helper with its pickle key. -/
theorem Init_resume_encrypts (w : World) (b : Bot) (key : Bytes)
    (hu : b.Username = "") (hc : b.identityIncomplete = false)
    (hk : b.encryptionPickleKey = some key) :
    Event.newCryptoHelper key b.DbPath (w.newCryptoHelperErr key b.DbPath) ∈
      (b.Init w).events := by
  have hw : b.wantsLogin = false := by simp [Bot.wantsLogin, hu]
  have hls : b.loginStep w = { err := none, bot := b, events := [] } := by
    simp [Bot.loginStep, hw]
  rcases Init_spec w b with ⟨e, he, _⟩ | ⟨_, hi, _⟩ | ⟨_, _, r2, hr2, hI⟩
  · rw [hls] at he; simp at he
  · rw [hls] at hi; simp only at hi; rw [hc] at hi; simp at hi
  · have hmem : Event.newCryptoHelper key b.DbPath (w.newCryptoHelperErr key b.DbPath) ∈
        r2.events := by
      rw [hr2, hls]
      simp only [Bot.encryptionStep, hk, Bot.initializeEncryption]
      cases h1 : w.newCryptoHelperErr key b.DbPath with
      | some e => simp
      | none => simp only []; cases w.cryptoInitErr key <;> simp
    rcases hI with ⟨e, _, hI⟩ | ⟨_, hI⟩ <;> rw [hI] <;> simp [hmem]

/-- Every construction of the crypto helper inside `Init` uses the pickle key
and the database path of the bot. -/
theorem Init_crypto_key (w : World) (b : Bot) (k : Bytes) (p : String) (e : Option String)
    (h : Event.newCryptoHelper k p e ∈ (b.Init w).events) :
    b.encryptionPickleKey = some k ∧ p = b.DbPath := by
  obtain ⟨f1, f2, _⟩ := loginStep_frame w b
  have hnl : ¬ Event.newCryptoHelper k p e ∈ (b.loginStep w).events := by
    intro hm
    have := loginStep_events_kind w b _ hm
    simp [Event.isLogin] at this
  rcases Init_spec w b with ⟨e2, _, hI⟩ | ⟨_, _, hI⟩ | ⟨_, _, r2, hr2, hI⟩
  · rw [hI] at h; exact absurd h hnl
  · rw [hI] at h; exact absurd h hnl
  · have hmem : Event.newCryptoHelper k p e ∈ r2.events := by
      rcases hI with ⟨e2, _, hI⟩ | ⟨_, hI⟩ <;> rw [hI] at h <;> simp at h
      · rcases h with h | h
        · exact absurd h hnl
        · exact h
      · rcases h with h | h
        · exact absurd h hnl
        · exact h
    rcases encryptionStep_spec w
          { (b.loginStep w).bot with
            syncer := some NewDefaultSyncer
            matrix := { (b.loginStep w).bot.matrix with Syncer := some Ptr.syncer } }
        with ⟨hk, hE⟩ | ⟨key, e3, hk, _, hE⟩ | ⟨key, e3, hk, _, _, hE⟩ | ⟨key, hk, _, _, hE⟩ <;>
      rw [← hr2] at hE <;> rw [hE] at hmem <;> simp at hmem <;> simp only [f1] at hk <;>
      simp [hk, hmem, f2]

/-- C8.  Round trip across restarts.  Let a first run of `main` start from an
empty table and complete the bootstrap, and let a second run read the table
the first run left and reach the call of `Init`.  Then the first run logged in
once and wrote one record holding the access token, device id and user id of
the login answer (all non-empty) and the key it generated; the bot and the
client of the second run carry that access token as access token, that user
id as user id and that device id as device id; the second run makes no login
call; and it constructs the crypto helper with the key of the first run and
with no other key. -/
theorem identity_round_trip (cfg1 cfg2 : Config) (w1 w2 : World) (bot1 : Bot) (s2 : Setup)
    (t2 : List Event) (hrows1 : w1.rows = [])
    (h1 : (main cfg1 w1).outcome = Boot.booted bot1)
    (hrows2 : w2.rows = (main cfg1 w1).store)
    (hS2 : mainSetup cfg2 w2 = (Except.ok s2, t2)) :
    ∃ resp key,
      (main cfg1 w1).trace.filter Event.isLogin =
          [Event.login
            { type := AuthType.password
              identifier := { type := IdentifierType.user, user := cfg1.username }
              password := cfg1.password, storeCredentials := true, storeHomeserverURL := true }
            (some resp) none] ∧
        (main cfg1 w1).trace.filter Event.isEncryption =
          [Event.newCryptoHelper key "matrix_bot.db" none, Event.cryptoInit none] ∧
        key = (List.range 32).map w1.entropy ∧
        (main cfg1 w1).store =
          [{ accessToken := some resp.AccessToken, deviceId := some resp.DeviceID,
             userId := some resp.UserID, pickleKey := some key }] ∧
        resp.AccessToken ≠ "" ∧ resp.UserID ≠ "" ∧ resp.DeviceID ≠ "" ∧
        s2.bot.AccessToken = resp.AccessToken ∧ s2.bot.UserId = resp.UserID ∧
        s2.bot.DeviceId = resp.DeviceID ∧
        s2.bot.matrix.AccessToken = resp.AccessToken ∧ s2.bot.matrix.UserID = resp.UserID ∧
        s2.bot.matrix.DeviceID = resp.DeviceID ∧
        s2.bot.encryptionPickleKey = some key ∧
        (main cfg2 w2).trace.filter Event.isLogin = [] ∧
        Event.newCryptoHelper key "matrix_bot.db" (w2.newCryptoHelperErr key "matrix_bot.db") ∈
          (main cfg2 w2).trace ∧
        (∀ k p e, Event.newCryptoHelper k p e ∈ (main cfg2 w2).trace → k = key) := by
  obtain ⟨s1, t1, hS1, hI1, hbm, hins⟩ := main_booted cfg1 w1 bot1 h1
  obtain ⟨hss, hkey, _, _, _, resp, hl, a1, a2, a3, n1, n2, n3⟩ :=
    first_run_identity cfg1 w1 s1 t1 hS1 hI1 hrows1
  obtain ⟨f1, _, _⟩ := main_filters_ok cfg1 w1 s1 t1 hS1 hI1
  obtain ⟨_, hst, _⟩ := main_run_ok cfg1 w1 s1 t1 hS1 hI1
  have hstore : (main cfg1 w1).store =
      [{ accessToken := some resp.AccessToken, deviceId := some resp.DeviceID,
         userId := some resp.UserID, pickleKey := some s1.pickleKey }] := by
    rw [hst, hrows1, a1, a2, a3]
    simp [hss, hins hss, Row.ofValues]
  rw [hstore] at hrows2
  obtain ⟨ld, tk, hL, hK, htk, _, _, hek, hdb, _, _, hc, _⟩ := setup_bot cfg2 w2 s2 t2 hS2
  obtain ⟨e1, e2, e3, e4, _⟩ :=
    mainLoad_row w2 ld _ _ _ resp.AccessToken resp.DeviceID resp.UserID hL hrows2 rfl rfl rfl
  simp only at e4
  rw [e4] at hK
  have hk2 : s2.pickleKey = s1.pickleKey := by
    rcases mainPickleKey_ok w2 _ _ _ hK with ⟨h, _⟩ | ⟨h, _⟩
    · simpa using h.symm
    · simp at h
  obtain ⟨b1, b2, b3, b4, b5, b6, b7, _⟩ :=
    hc ⟨by rw [e1]; exact n1, by rw [e2]; exact n3, by rw [e3]; exact n2⟩
  rw [e1] at b1 b4
  rw [e3] at b2 b5
  rw [e2] at b3 b6
  rw [hk2] at hek
  have hinc : s2.bot.identityIncomplete = false :=
    (identityIncomplete_false_iff _).mpr ⟨by rw [b1]; exact n1, by rw [b2]; exact n2,
      by rw [b3]; exact n3⟩
  have hcall := Init_resume_encrypts w2 s2.bot s1.pickleKey b7 hinc hek
  rw [hdb] at hcall
  obtain ⟨ins, ht2, hins2⟩ := main_trace_of_setup cfg2 w2 s2 t2 hS2
  refine ⟨resp, s1.pickleKey, hl, f1, hkey, hstore, n1, n2, n3, b1, b2, b3, b4, b5, b6, hek,
    ?_, ?_, ?_⟩
  · rw [main_filter_login cfg2 w2 s2 t2 hS2]
    simp [Bot.loginStep, Bot.wantsLogin, b7]
  · rw [ht2]
    simp [hcall]
  · intro k p e hmem
    rw [ht2] at hmem
    rcases List.mem_append.mp hmem with h | h
    · rcases List.mem_append.mp h with h | h
      · have := mainSetup_events_kind cfg2 w2 _ (by rw [setup_snd cfg2 w2 _ t2 hS2]; exact h)
        simp [Event.isEncryption] at this
      · have := (Init_crypto_key w2 s2.bot k p e h).1
        rw [hek] at this
        simpa using this.symm
    · rcases hins2 with ⟨h0, _⟩ | ⟨_, _, h3, _⟩
      · rw [h0] at h; simp at h
      · rw [h3] at h; simp at h

/-! ## Concrete runs -/

/-- Witness for C1: a first run on `freshWorld`. -/
theorem first_run_logs_in_and_persists_witness :
    freshWorld.rows = [] ∧ sampleConfig.username ≠ "" ∧ sampleConfig.password ≠ "" ∧
      Event.login sampleConfigRequest (some sampleLogin) none ∈
        (main sampleConfig freshWorld).trace ∧
      (main sampleConfig freshWorld).trace.filter Event.isLogin =
        [Event.login sampleConfigRequest (some sampleLogin) none] ∧
      (main sampleConfig freshWorld).trace.filter Event.isInsert =
        [Event.dbInsert "syt_token" "DEVICE1" "@bot:example.org" sampleKey none] ∧
      (main sampleConfig freshWorld).store =
        [Row.ofValues "syt_token" "DEVICE1" "@bot:example.org" sampleKey] ∧
      sampleKey.length = 32 :=
  have h := first_run_logs_in_and_persists sampleConfig freshWorld sampleConfigRequest
    sampleLogin sampleKey "matrix_bot.db" "Bot" rfl (by decide) (by decide) (by decide)
    (by decide) (by decide) (by decide) (by decide) (by decide) (by decide)
  ⟨rfl, by decide, by decide, by decide, h.1, h.2.2.2.2.2.1, h.2.2.2.2.2.2, h.2.2.2.1⟩

/-- A restart on `storedWorld`, where the stored record is read: no login and
no write. -/
theorem stored_identity_skips_login_witness :
    storedWorld.rows =
        [{ accessToken := some "syt_token", deviceId := some "DEVICE1",
           userId := some "@bot:example.org", pickleKey := some sampleKey }] ∧
      (∃ bm, (main sampleConfig storedWorld).outcome = Boot.booted bm) ∧
      (∀ ev ∈ (main sampleConfig storedWorld).trace, ev.isLogin = false ∧ ev.isInsert = false) ∧
      (main sampleConfig storedWorld).store = storedWorld.rows :=
  have h := stored_identity_skips_login sampleConfig storedWorld
    { accessToken := some "syt_token", deviceId := some "DEVICE1",
      userId := some "@bot:example.org", pickleKey := some sampleKey } []
    "syt_token" "@bot:example.org" "DEVICE1" rfl rfl rfl rfl (by decide) (by decide) (by decide)
  ⟨rfl, ⟨_, rfl⟩, h.1, h.2⟩

/-- C2, at the failing input.  The table holds a record with non-empty access
token, user id and device id, the query succeeds, and the fetch of the row
fails.  `main` takes the false `res.Next()` for an empty table: the run
completes the bootstrap, makes a password login with the configured username
and password, and issues an INSERT of a second record with the identity of
that new login and a newly generated key, beside the stored record.  The
claim says that with such a record in the store the login is never called and
no INSERT is performed. -/
theorem stored_identity_fetch_failure_logs_in :
    fetchFailedWorld.unfetched =
        [{ accessToken := some "syt_token", deviceId := some "DEVICE1",
           userId := some "@bot:example.org", pickleKey := some sampleKey }] ∧
      fetchFailedWorld.queryErr = none ∧
      fetchFailedWorld.fetchErr = some "database is locked" ∧
      fetchFailedWorld.rows = [] ∧
      (∃ bm, (main sampleConfig fetchFailedWorld).outcome = Boot.booted bm ∧
        bm.AccessToken = "syt_second" ∧ bm.DeviceId = "DEVICE2") ∧
      (main sampleConfig fetchFailedWorld).trace.filter Event.isLogin =
        [Event.login sampleConfigRequest
          (some { AccessToken := "syt_second", DeviceID := "DEVICE2",
                  UserID := "@bot:example.org" }) none] ∧
      (main sampleConfig fetchFailedWorld).trace.filter Event.isInsert =
        [Event.dbInsert "syt_second" "DEVICE2" "@bot:example.org"
          ((List.range 32).map fetchFailedWorld.entropy) none] ∧
      (main sampleConfig fetchFailedWorld).store ++ fetchFailedWorld.unfetched =
        [{ accessToken := some "syt_second", deviceId := some "DEVICE2",
           userId := some "@bot:example.org",
           pickleKey := some ((List.range 32).map fetchFailedWorld.entropy) },
         { accessToken := some "syt_token", deviceId := some "DEVICE1",
           userId := some "@bot:example.org", pickleKey := some sampleKey }] := by
  refine ⟨rfl, rfl, rfl, rfl, ⟨_, rfl, rfl, rfl⟩, by decide, by decide, by decide⟩

/-- Witness for C3: a first run that persists, and a run whose crypto helper fails. -/
theorem persist_only_after_encryption_witness :
    (∃ s t, mainSetup sampleConfig freshWorld = (Except.ok s, t) ∧
        (s.bot.Init freshWorld).err = none ∧
        (main sampleConfig freshWorld).trace =
          (t ++ (s.bot.Init freshWorld).events) ++
            [Event.dbInsert "syt_token" "DEVICE1" "@bot:example.org" sampleKey none] ∧
        Event.newCryptoHelper s.pickleKey "matrix_bot.db" none ∈
          t ++ (s.bot.Init freshWorld).events ∧
        Event.cryptoInit none ∈ t ++ (s.bot.Init freshWorld).events) ∧
      Event.cryptoInit (some "olm account is locked") ∈
        (main sampleConfig brokenCryptoWorld).trace ∧
      (main sampleConfig brokenCryptoWorld).store = brokenCryptoWorld.rows ∧
      (main sampleConfig brokenCryptoWorld).trace.filter Event.isInsert = [] := by
  have hfail : Event.cryptoInit (some "olm account is locked") ∈
      (main sampleConfig brokenCryptoWorld).trace := by decide
  have h2 := (persist_only_after_encryption sampleConfig brokenCryptoWorld).2 [] ""
    "olm account is locked" (Or.inr hfail)
  have htr : (main sampleConfig freshWorld).trace =
      (main sampleConfig freshWorld).trace.dropLast ++
        Event.dbInsert "syt_token" "DEVICE1" "@bot:example.org" sampleKey none :: [] := by
    decide
  obtain ⟨s, t, hS, hI, hp, _, hn, hc⟩ :=
    (persist_only_after_encryption sampleConfig freshWorld).1 _ _ _ htr rfl
  refine ⟨⟨s, t, hS, hI, ?_, ?_, ?_⟩, hfail, h2.1, h2.2.1⟩
  · rw [← hp]; exact htr
  · rw [← hp]; exact hn
  · rw [← hp]; exact hc

/-- Counterexample to C4 as stated: the table holds a record with an empty access
token, the run logs in and completes the bootstrap, and nothing is written. -/
theorem persist_follows_completeness_counterexample :
    incompleteWorld.rows =
        [{ accessToken := some "", deviceId := some "DEVICE0",
           userId := some "@bot:example.org", pickleKey := some [1, 2, 3] }] ∧
      (∃ bm, (main sampleConfig incompleteWorld).outcome = Boot.booted bm ∧
        bm.AccessToken = "syt_token" ∧ bm.DeviceId = "DEVICE1") ∧
      (main sampleConfig incompleteWorld).trace.filter Event.isLogin =
        [Event.login sampleConfigRequest (some sampleLogin) none] ∧
      (main sampleConfig incompleteWorld).trace.filter Event.isInsert = [] ∧
      (main sampleConfig incompleteWorld).store = incompleteWorld.rows := by
  refine ⟨rfl, ⟨_, rfl, rfl, rfl⟩, by decide, by decide, by decide⟩

/-- Witness for C4 as amended: a first run and a restart. -/
theorem persist_exactly_when_no_row_witness :
    (∃ bm key, (main sampleConfig freshWorld).outcome = Boot.booted bm ∧
        (main sampleConfig freshWorld).trace.filter Event.isInsert =
          [Event.dbInsert bm.AccessToken bm.DeviceId bm.UserId key none] ∧
        (main sampleConfig freshWorld).store =
          [Row.ofValues bm.AccessToken bm.DeviceId bm.UserId key]) ∧
      (∃ bm, (main sampleConfig storedWorld).outcome = Boot.booted bm) ∧
      (main sampleConfig storedWorld).trace.filter Event.isInsert = [] ∧
      (main sampleConfig storedWorld).store = storedWorld.rows := by
  have hb1 : ∃ bm, (main sampleConfig freshWorld).outcome = Boot.booted bm := ⟨_, rfl⟩
  have hb2 : ∃ bm, (main sampleConfig storedWorld).outcome = Boot.booted bm := ⟨_, rfl⟩
  obtain ⟨bm1, h1⟩ := hb1
  obtain ⟨bm2, h2⟩ := hb2
  obtain ⟨key, k1, k2⟩ := (persist_exactly_when_no_row sampleConfig freshWorld bm1 h1).1 rfl
  have h3 := (persist_exactly_when_no_row sampleConfig storedWorld bm2 h2).2 (by decide)
  exact ⟨⟨bm1, key, h1, k1, k2⟩, ⟨bm2, h2⟩, h3.1, h3.2⟩

/-- Witness for C5: a run on `incompleteWorld`. -/
theorem incomplete_identity_logs_in_witness :
    ∃ s t, mainSetup sampleConfig incompleteWorld = (Except.ok s, t) ∧
      s.bot.AccessToken = "" ∧ s.bot.UserId = "" ∧ s.bot.DeviceId = "" ∧
      (main sampleConfig incompleteWorld).trace.filter Event.isLogin =
        [Event.login sampleConfigRequest (some sampleLogin) none] := by
  have hS : ∃ s t, mainSetup sampleConfig incompleteWorld = (Except.ok s, t) := ⟨_, _, rfl⟩
  obtain ⟨s, t, hS⟩ := hS
  have h := incomplete_identity_logs_in sampleConfig incompleteWorld
    { accessToken := some "", deviceId := some "DEVICE0",
      userId := some "@bot:example.org", pickleKey := some [1, 2, 3] } []
    "" "@bot:example.org" "DEVICE0" s t rfl rfl rfl rfl (Or.inl rfl) (by decide) (by decide) hS
  exact ⟨s, t, hS, h.1, h.2.1, h.2.2.1, by decide⟩

/-- Witness for C6: three responses, one verification. -/
theorem verification_fires_once_witness :
    verifiedBot.syncer = some NewDefaultSyncer ∧ 2 ≤ sampleResps.length ∧
      ∃ b1 st0, verifiedBot.Run = Except.ok (b1, st0) ∧
        verifyCount (deliver freshWorld st0 sampleResps).events = 1 ∧
        verifyCount (deliver freshWorld st0 (sampleResps.take 1)).events = 1 ∧
        (deliver freshWorld st0 sampleResps).panic = none := by
  obtain ⟨b1, st0, hR, h1, h2, _⟩ :=
    verification_fires_once freshWorld verifiedBot NewDefaultSyncer sampleResps rfl (by decide)
  refine ⟨rfl, by decide, b1, st0, hR, h1, h2, ?_⟩
  have hst : Except.ok (b1, st0) = verifiedBot.Run := hR.symm
  simp only [Bot.Run, verifiedBot, emptyBot, Except.ok.injEq, Prod.mk.injEq] at hst
  rw [hst.2]
  decide

/-- Witness for C7: a bot without credentials, and a bot with a password. -/
theorem init_checks_identity_witness :
    (emptyBot.Init freshWorld).err =
        some "either username and password or access token and user id and device id must be set" ∧
      (emptyBot.Init freshWorld).events = [] ∧
      ((emptyBot.SetUsernamePassword "bot" "hunter2").Init freshWorld).err = none ∧
      ((emptyBot.SetUsernamePassword "bot" "hunter2").Init freshWorld).bot.AccessToken ≠ "" := by
  have h1 := (init_checks_identity freshWorld emptyBot).2.1 (by decide) (Or.inl (by decide))
  have h3 : ((emptyBot.SetUsernamePassword "bot" "hunter2").Init freshWorld).err = none := by
    decide
  have h2 := (init_checks_identity freshWorld (emptyBot.SetUsernamePassword "bot" "hunter2")).2.2 h3
  exact ⟨h1.1, by rw [h1.2.1]; decide, h3, h2.1⟩

/-- Witness for C8: a first run on `freshWorld`, then a restart on `storedWorld`. -/
theorem identity_round_trip_witness :
    freshWorld.rows = [] ∧ storedWorld.rows = (main sampleConfig freshWorld).store ∧
      ∃ s2 t2, mainSetup sampleConfig storedWorld = (Except.ok s2, t2) ∧
        s2.bot.AccessToken = "syt_token" ∧ s2.bot.UserId = "@bot:example.org" ∧
        s2.bot.DeviceId = "DEVICE1" ∧ s2.bot.encryptionPickleKey = some sampleKey ∧
        Event.newCryptoHelper sampleKey "matrix_bot.db" none ∈
          (main sampleConfig storedWorld).trace := by
  have hb1 : ∃ bm, (main sampleConfig freshWorld).outcome = Boot.booted bm := ⟨_, rfl⟩
  have hS : ∃ s t, mainSetup sampleConfig storedWorld = (Except.ok s, t) := ⟨_, _, rfl⟩
  obtain ⟨bm1, h1⟩ := hb1
  obtain ⟨s2, t2, hS⟩ := hS
  have hrows : storedWorld.rows = (main sampleConfig freshWorld).store := by decide
  obtain ⟨resp, key, hl, _, hk, _, _, _, _, a1, a2, a3, _, _, _, a7, _, _, _⟩ :=
    identity_round_trip sampleConfig sampleConfig freshWorld storedWorld bm1 s2 t2 rfl h1
      hrows hS
  have hresp : resp = sampleLogin := by
    have h0 : (main sampleConfig freshWorld).trace.filter Event.isLogin =
        [Event.login sampleConfigRequest (some sampleLogin) none] := by decide
    rw [h0] at hl
    simp at hl
    exact hl.2.symm
  have hkey : key = sampleKey := hk
  subst hresp hkey
  exact ⟨rfl, hrows, s2, t2, hS, a1, a2, a3, a7, by decide⟩

/-- Witness for C10: a first run on `freshWorld`. -/
theorem encryption_always_initialised_witness :
    ∃ s t, mainSetup sampleConfig freshWorld = (Except.ok s, t) ∧
      (s.bot.Init freshWorld).err = none ∧
      (main sampleConfig freshWorld).trace.filter Event.isEncryption =
        [Event.newCryptoHelper s.pickleKey "matrix_bot.db" none, Event.cryptoInit none] ∧
      s.pickleKey = sampleKey ∧ s.pickleKey.length = 32 := by
  have hS : ∃ s t, mainSetup sampleConfig freshWorld = (Except.ok s, t) := ⟨_, _, rfl⟩
  obtain ⟨s, t, hS⟩ := hS
  have hI : (s.bot.Init freshWorld).err = none := by
    cases hE : (s.bot.Init freshWorld).err with
    | none => rfl
    | some e =>
      have := main_of_init_err sampleConfig freshWorld s t e hS hE
      have hb : ∃ bm, (main sampleConfig freshWorld).outcome = Boot.booted bm := ⟨_, rfl⟩
      obtain ⟨bm, hb⟩ := hb
      rw [this] at hb
      simp at hb
  have h := encryption_always_initialised sampleConfig freshWorld s t hS hI
  have h4 := h.2.2.2 (Or.inl rfl)
  exact ⟨s, t, hS, hI, h.1, h4.1, h4.2.1⟩

end MatrixBot
